import Mathlib

/-!
Verification of the coordinate-to-forecast resolution and enrichment pipeline
of the Motorcycle_Weather repository (`server/app/weather.py`,
`server/app/ride_quality.py`, `server/app/optimization.py`,
`server/app/forecast.py`, `server/app/coordinates.py`,
`server/app/firestore_service.py`).

The Python code is shallowly embedded:
* Python/JSON values are modelled by the mutual inductive `PyVal`
  (`PyVal.null` is Python `None`); Python dicts are insertion-ordered
  association lists (`PyDict`); numbers are modelled as rationals.
* Stateful code (HTTP calls, the Firestore TTL store) is modelled by
  explicit parameters and explicit state passing.
* Fallible code returns `Option`/`Except`; an uncaught Python exception is a
  `none`/`.error` result.
-/

mutual
/-- Python runtime values as they occur in this code base: `None`, booleans,
numbers (ints and floats are modelled together as rationals), strings, lists
and string-keyed dicts.  The mutual presentation (instead of a nested `List`)
keeps equality kernel-decidable. -/
inductive PyVal where
  | null
  | bool (b : Bool)
  | num (q : ℚ)
  | str (s : String)
  | list (xs : PyList)
  | dict (kvs : PyDict)
inductive PyList where
  | nil
  | cons (hd : PyVal) (tl : PyList)
inductive PyDict where
  | nil
  | cons (k : String) (v : PyVal) (tl : PyDict)
end

deriving instance DecidableEq for PyVal, PyList, PyDict

/-- Build a `PyList` from a Lean list. -/
def PyList.ofList : List PyVal → PyList
  | [] => .nil
  | x :: xs => .cons x (PyList.ofList xs)

/-- Build a `PyDict` from a Lean list of key/value pairs. -/
def PyDict.ofList : List (String × PyVal) → PyDict
  | [] => .nil
  | (k, v) :: xs => .cons k v (PyDict.ofList xs)

/-- View a `PyList` as a Lean list. -/
def PyList.toList : PyList → List PyVal
  | .nil => []
  | .cons x xs => x :: xs.toList

/-- Dict lookup, `d[k]` / presence side of `d.get(k)`: first (and, for dicts
built by Python, only) binding of the key. -/
def PyDict.get? : PyDict → String → Option PyVal
  | .nil, _ => none
  | .cons k v tl, key => if k = key then some v else tl.get? key

/-- Python `d.get(k)`: `None` both when the key is absent and when the stored
value is `None`.  Code that only checks `is not None` cannot tell the two
apart, so they are conflated here exactly as in Python. -/
def PyDict.getOrNone (d : PyDict) (key : String) : PyVal :=
  (d.get? key).getD .null

/-- Python `d.get(k, default)`. -/
def PyDict.getD (d : PyDict) (key : String) (dflt : PyVal) : PyVal :=
  (d.get? key).getD dflt

/-- Python `d[k] = v`: replaces the value in place if the key is present
(keeping its position), appends the binding otherwise. -/
def PyDict.set : PyDict → String → PyVal → PyDict
  | .nil, key, v => .cons key v .nil
  | .cons k v0 tl, key, v =>
      if k = key then .cons k v tl else .cons k v0 (tl.set key v)

/-- Python `k in d`. -/
def PyDict.hasKey (d : PyDict) (key : String) : Bool :=
  (d.get? key).isSome

/-- Python truthiness of a value (`bool(v)`). -/
def PyVal.truthy : PyVal → Bool
  | .null => false
  | .bool b => b
  | .num q => q ≠ 0
  | .str s => s ≠ ""
  | .list .nil => false
  | .list _ => true
  | .dict .nil => false
  | .dict _ => true

/-! Basic character-level string helpers, used to model Python string
operations (`split`, `in` on strings, `replace`, int/float literals). -/

/-- Split a character list at every occurrence of the separator character,
like Python `s.split(".")` for a one-character separator. -/
def splitOnChar (sep : Char) : List Char → List (List Char)
  | [] => [[]]
  | c :: cs =>
      let rest := splitOnChar sep cs
      if c = sep then [] :: rest
      else
        match rest with
        | [] => [[c]]
        | r :: rs => (c :: r) :: rs

/-- Whether `pat` occurs at the very front of `cs`. -/
def startsWithChars (pat cs : List Char) : Bool :=
  match pat, cs with
  | [], _ => true
  | _ :: _, [] => false
  | p :: ps, c :: cs => p = c && startsWithChars ps cs

/-- Python `pat in s` for strings: substring containment. -/
def containsSub (pat : List Char) : List Char → Bool
  | [] => startsWithChars pat []
  | c :: cs => startsWithChars pat (c :: cs) || containsSub pat cs

/-- Drop everything up to and including the first occurrence of `pat`;
`none` when `pat` does not occur.  This is the tail that Python
`s.split(pat)[1:]` starts from. -/
def dropThroughFirst (pat : List Char) : List Char → Option (List Char)
  | [] => if pat.isEmpty then some [] else none
  | c :: cs =>
      if startsWithChars pat (c :: cs) then some ((c :: cs).drop pat.length)
      else (dropThroughFirst pat cs).map id

/-- Take characters up to (excluding) the first occurrence of the separator
character; models Python `s.split(c)[0]`. -/
def takeUntilChar (sep : Char) : List Char → List Char
  | [] => []
  | c :: cs => if c = sep then [] else c :: takeUntilChar sep cs

/-- Python `s.replace(a, b)` specialised to the use in the source:
replace every `'Z'` with `"+00:00"`. -/
def replaceZ : List Char → List Char
  | [] => []
  | c :: cs => if c = 'Z' then '+' :: '0' :: '0' :: ':' :: '0' :: '0' :: replaceZ cs
               else c :: replaceZ cs

/-- Value of a list of decimal digit characters (most significant first),
`none` when the list is empty or contains a non-digit. -/
def digitsToNat? (cs : List Char) : Option Nat :=
  match cs with
  | [] => none
  | _ =>
    cs.foldl (fun acc c =>
      match acc with
      | none => none
      | some n => if c.isDigit then some (n * 10 + (c.toNat - '0'.toNat)) else none)
      (some 0)

/-- First maximal run of decimal digits in a string, as a number; models the
regex search `(\d+)` in `_parse_wind_speed`.  `none` when no digit occurs. -/
def firstDigitRun : List Char → Option Nat
  | [] => none
  | c :: cs =>
      if c.isDigit then digitsToNat? ((c :: cs).takeWhile Char.isDigit)
      else firstDigitRun cs

/-- Python `int(s)`: optional surrounding spaces, optional sign, decimal
digits; `none` models `ValueError`. -/
def pyIntOfString (cs : List Char) : Option Int :=
  let cs := (cs.dropWhile (· = ' ')).reverse.dropWhile (· = ' ') |>.reverse
  match cs with
  | '+' :: ds => (digitsToNat? ds).map Int.ofNat
  | '-' :: ds => (digitsToNat? ds).map (fun n => -(Int.ofNat n))
  | ds => (digitsToNat? ds).map Int.ofNat

/-- Decimal mantissa `whole[.frac]` as a rational, with at least one digit
overall, as accepted by Python `float`. -/
def mantissaToRat? (cs : List Char) : Option ℚ :=
  match splitOnChar '.' cs with
  | [whole] => (digitsToNat? whole).map (fun n => (n : ℚ))
  | [whole, frac] =>
      if whole.isEmpty && frac.isEmpty then none
      else
        let w : ℚ := ((digitsToNat? whole).getD 0 : ℚ)
        let fOk : Bool := frac.isEmpty || (digitsToNat? frac).isSome
        let wOk : Bool := whole.isEmpty || (digitsToNat? whole).isSome
        if fOk && wOk then
          some (w + ((digitsToNat? frac).getD 0 : ℚ) / (10 : ℚ) ^ frac.length)
        else none
  | _ => none

/-- Python `float(s)` on the decimal forms used here: optional spaces,
optional sign, mantissa, optional exponent.  `none` models `ValueError`.
(`inf`/`nan` literals are not modelled; they do not occur in this code.) -/
def pyFloatOfString (cs : List Char) : Option ℚ :=
  let cs := (cs.dropWhile (· = ' ')).reverse.dropWhile (· = ' ') |>.reverse
  let signed : List Char → Option ℚ := fun cs =>
    match cs with
    | '+' :: rest => mantissaToRat? rest
    | '-' :: rest => (mantissaToRat? rest).map Neg.neg
    | rest => mantissaToRat? rest
  match dropThroughFirst ['e'] cs, dropThroughFirst ['E'] cs with
  | none, none => signed cs
  | _, _ =>
      let mant := cs.takeWhile (fun c => c ≠ 'e' ∧ c ≠ 'E')
      let expPart := (dropThroughFirst ['e'] cs).getD ((dropThroughFirst ['E'] cs).getD [])
      match signed mant, pyIntOfString expPart with
      | some m, some e => some (m * (10 : ℚ) ^ e)
      | _, _ => none

/-- Python `float(v)` on a runtime value: numbers pass through, booleans
become 0/1, strings are parsed, everything else raises `TypeError`
(modelled as `none`). -/
def pyFloat : PyVal → Option ℚ
  | .num q => some q
  | .bool b => some (if b then 1 else 0)
  | .str s => pyFloatOfString s.data
  | _ => none

/-! Python `round(x, 1)`: round to one decimal, ties to even.  The source
applies it to floats; it is modelled exactly on rationals. -/

/-- Round to the nearest integer, ties to even. -/
def roundHalfEven (q : ℚ) : ℤ :=
  let f := ⌊q⌋
  let r := q - (f : ℚ)
  if r < 1/2 then f
  else if 1/2 < r then f + 1
  else if f % 2 = 0 then f else f + 1

/-- Python `round(x, 1)`. -/
def round1 (q : ℚ) : ℚ := (roundHalfEven (q * 10) : ℚ) / 10

theorem roundHalfEven_nonneg {q : ℚ} (h : 0 ≤ q) : 0 ≤ roundHalfEven q := by
  have hf : (0 : ℤ) ≤ ⌊q⌋ := Int.floor_nonneg.mpr h
  unfold roundHalfEven
  dsimp only
  split
  · exact hf
  · split
    · omega
    · split
      · exact hf
      · omega

theorem roundHalfEven_le_int {q : ℚ} {c : ℤ} (h : q ≤ (c : ℚ)) :
    roundHalfEven q ≤ c := by
  have hf : ⌊q⌋ ≤ c := Int.floor_le_floor h |>.trans_eq (Int.floor_intCast c)
  unfold roundHalfEven
  dsimp only
  split
  · exact hf
  · rename_i h1
    push_neg at h1
    have hlt : (⌊q⌋ : ℚ) < q := by
      by_contra hc
      push_neg at hc
      have : q - (⌊q⌋ : ℚ) ≤ 0 := by linarith
      linarith
    have : ⌊q⌋ < c := by
      by_contra hc
      push_neg at hc
      have : (c : ℚ) ≤ (⌊q⌋ : ℚ) := by exact_mod_cast hc
      linarith
    split
    · omega
    · split
      · exact hf
      · omega

theorem round1_nonneg {q : ℚ} (h : 0 ≤ q) : 0 ≤ round1 q := by
  have h0 : (0 : ℤ) ≤ roundHalfEven (q * 10) := roundHalfEven_nonneg (by positivity)
  have h1 : (0 : ℚ) ≤ (roundHalfEven (q * 10) : ℚ) := by exact_mod_cast h0
  unfold round1
  linarith

theorem round1_le_100 {q : ℚ} (h : q ≤ 100) : round1 q ≤ 100 := by
  have h10 : q * 10 ≤ ((1000 : ℤ) : ℚ) := by push_cast; linarith
  have := roundHalfEven_le_int h10
  unfold round1
  have hcast : (roundHalfEven (q * 10) : ℚ) ≤ 1000 := by exact_mod_cast this
  linarith

theorem round1_is_tenth (q : ℚ) : ∃ z : ℤ, round1 q = (z : ℚ) / 10 :=
  ⟨roundHalfEven (q * 10), rfl⟩

/-! Coordinate Normalizer, `weather.py` lines 37-45.

Python:
```
def truncateCoordinate(coordinate: str, max_decimal_places: int = 4) -> str:
    if "." not in coordinate:
        return coordinate
    whole, fraction = coordinate.split(".")
    if len(fraction) > max_decimal_places:
        return f"(whole).(fraction[:max_decimal_places])"
    else:
        return coordinate
```
The tuple unpacking `whole, fraction = coordinate.split(".")` raises
`ValueError` when the split does not yield exactly two parts, i.e. when the
input contains more than one dot; this is modelled by the `none` result.
The default `max_decimal_places = 4` is passed explicitly by callers here. -/
def truncateCoordinate (coordinate : String) (max_decimal_places : Nat) : Option String :=
  if containsSub ['.'] coordinate.data then
    match splitOnChar '.' coordinate.data with
    | [whole, fraction] =>
        if fraction.length > max_decimal_places then
          some (String.mk (whole ++ '.' :: fraction.take max_decimal_places))
        else some coordinate
    | _ => none
  else some coordinate

theorem splitOnChar_ne_nil (sep : Char) (cs : List Char) : splitOnChar sep cs ≠ [] := by
  induction cs with
  | nil => simp [splitOnChar]
  | cons c cs ih =>
    simp only [splitOnChar]
    split
    · simp
    · cases h : splitOnChar sep cs with
      | nil => exact absurd h ih
      | cons r rs => simp [h]

theorem splitOnChar_length (sep : Char) (cs : List Char) :
    (splitOnChar sep cs).length = cs.count sep + 1 := by
  induction cs with
  | nil => simp [splitOnChar]
  | cons c cs ih =>
    simp only [splitOnChar]
    by_cases h : c = sep
    · simp [h, List.count_cons, ih]
    · cases hs : splitOnChar sep cs with
      | nil => exact absurd hs (splitOnChar_ne_nil sep cs)
      | cons r rs =>
        simp only [if_neg h, hs]
        rw [hs] at ih
        simp only [List.length_cons] at ih ⊢
        have : cs.count sep = (c :: cs).count sep := by
          simp [List.count_cons, h]
        omega

theorem splitOnChar_not_mem (sep : Char) (cs : List Char) :
    ∀ part ∈ splitOnChar sep cs, sep ∉ part := by
  induction cs with
  | nil => intro part hp; simp [splitOnChar] at hp; simp [hp]
  | cons c cs ih =>
    intro part hp
    simp only [splitOnChar] at hp
    by_cases h : c = sep
    · rw [if_pos h] at hp
      rcases List.mem_cons.mp hp with h1 | h1
      · simp [h1]
      · exact ih part h1
    · rw [if_neg h] at hp
      cases hs : splitOnChar sep cs with
      | nil => exact absurd hs (splitOnChar_ne_nil sep cs)
      | cons r rs =>
        rw [hs] at hp
        rcases List.mem_cons.mp hp with h1 | h1
        · subst h1
          intro hmem
          rcases List.mem_cons.mp hmem with h2 | h2
          · exact h h2.symm
          · exact ih r (hs ▸ List.mem_cons_self r rs) h2
        · exact ih part (hs ▸ List.mem_cons.mpr (Or.inr h1))

theorem splitOnChar_of_not_mem {sep : Char} {cs : List Char} (h : sep ∉ cs) :
    splitOnChar sep cs = [cs] := by
  induction cs with
  | nil => simp [splitOnChar]
  | cons c cs ih =>
    simp only [splitOnChar]
    have hc : c ≠ sep := fun he => h (he ▸ List.mem_cons_self c cs)
    rw [if_neg hc, ih (fun hm => h (List.mem_cons.mpr (Or.inr hm)))]

theorem splitOnChar_append {sep : Char} {w : List Char} (f : List Char) (hw : sep ∉ w) :
    splitOnChar sep (w ++ sep :: f) = w :: splitOnChar sep f := by
  induction w with
  | nil => simp [splitOnChar]
  | cons c w ih =>
    have hc : c ≠ sep := fun he => hw (he ▸ List.mem_cons_self c w)
    have hw' : sep ∉ w := fun hm => hw (List.mem_cons.mpr (Or.inr hm))
    simp only [List.cons_append, splitOnChar, if_neg hc, List.append_eq]
    rw [ih hw']

theorem containsSub_single {a : Char} {cs : List Char} :
    containsSub [a] cs = true ↔ a ∈ cs := by
  induction cs with
  | nil => simp [containsSub, startsWithChars]
  | cons c cs ih =>
    simp only [containsSub, startsWithChars, Bool.or_eq_true, Bool.and_eq_true, List.mem_cons]
    constructor
    · rintro (⟨h1, _⟩ | h1)
      · exact Or.inl (of_decide_eq_true h1)
      · exact Or.inr (ih.mp h1)
    · rintro (h1 | h1)
      · exact Or.inl ⟨decide_eq_true h1, trivial⟩
      · exact Or.inr (ih.mpr h1)

theorem truncateCoordinate_no_dot {s : String} (h : '.' ∉ s.data) :
    truncateCoordinate s 4 = some s := by
  have hc : containsSub ['.'] s.data = false := by
    by_contra hcc
    simp only [Bool.not_eq_false] at hcc
    exact h (containsSub_single.mp hcc)
  unfold truncateCoordinate
  simp [hc]

theorem truncateCoordinate_split (w f : List Char) (hw : '.' ∉ w) (hf : '.' ∉ f) :
    truncateCoordinate (String.mk (w ++ '.' :: f)) 4 =
      some (String.mk (w ++ '.' :: f.take 4)) := by
  have hdata : (String.mk (w ++ '.' :: f)).data = w ++ '.' :: f := rfl
  have hmem : '.' ∈ w ++ '.' :: f := List.mem_append.mpr (Or.inr (List.mem_cons_self _ _))
  have hcontains : containsSub ['.'] (w ++ '.' :: f) = true := containsSub_single.mpr hmem
  unfold truncateCoordinate
  rw [hdata, hcontains, if_pos rfl, splitOnChar_append f hw, splitOnChar_of_not_mem hf]
  by_cases hlen : f.length > 4
  · simp [hlen]
  · push_neg at hlen
    simp [Nat.not_lt.mpr hlen, List.take_of_length_le hlen]

theorem truncateCoordinate_idem {s t : String} (h : truncateCoordinate s 4 = some t) :
    truncateCoordinate t 4 = some t := by
  by_cases hdot : containsSub ['.'] s.data = true
  · unfold truncateCoordinate at h
    rw [hdot, if_pos rfl] at h
    rcases hs : splitOnChar '.' s.data with _ | ⟨w, rest⟩
    · exact absurd hs (splitOnChar_ne_nil '.' s.data)
    rcases rest with _ | ⟨f, rest2⟩
    · rw [hs] at h
      exact absurd h (by simp)
    rcases rest2 with _ | ⟨x, rest3⟩
    · rw [hs] at h
      have hw : '.' ∉ w := splitOnChar_not_mem '.' s.data w (hs ▸ by simp)
      have hf : '.' ∉ f := splitOnChar_not_mem '.' s.data f (hs ▸ by simp)
      replace h : (if f.length > 4 then some (String.mk (w ++ '.' :: f.take 4))
          else some s) = some t := h
      by_cases hlen : f.length > 4
      · rw [if_pos hlen] at h
        obtain rfl : String.mk (w ++ '.' :: f.take 4) = t := by
          simpa using h
        have hres := truncateCoordinate_split w (f.take 4) hw
          (fun hm => hf (List.mem_of_mem_take hm))
        rwa [List.take_take, min_self] at hres
      · rw [if_neg hlen] at h
        obtain rfl : s = t := by simpa using h
        unfold truncateCoordinate
        rw [hdot, if_pos rfl, hs]
        show (if f.length > 4 then some (String.mk (w ++ '.' :: f.take 4))
            else some s) = some s
        rw [if_neg hlen]
    · rw [hs] at h
      exact absurd h (by simp)
  · unfold truncateCoordinate at h
    rw [if_neg (by simp [hdot])] at h
    obtain rfl : s = t := by simpa using h
    unfold truncateCoordinate
    rw [if_neg (by simp [hdot])]

theorem truncateCoordinate_total {s : String} (h : s.data.count '.' ≤ 1) :
    (truncateCoordinate s 4).isSome = true := by
  by_cases hdot : containsSub ['.'] s.data = true
  · have hmem : '.' ∈ s.data := containsSub_single.mp hdot
    have hcount : s.data.count '.' = 1 :=
      le_antisymm h (List.count_pos_iff.mpr hmem)
    have hlen : (splitOnChar '.' s.data).length = 2 := by
      rw [splitOnChar_length, hcount]
    unfold truncateCoordinate
    rw [hdot, if_pos rfl]
    rcases hs : splitOnChar '.' s.data with _ | ⟨w, _ | ⟨f, _ | _⟩⟩ <;>
      rw [hs] at hlen <;> simp_all
    split <;> simp
  · unfold truncateCoordinate
    rw [if_neg (by simp [hdot])]
    simp

/-- C7 counterexample: the claim says `truncateCoordinate` "has no failure
mode for any input string", but on `"1.2.3"` the tuple unpacking
`whole, fraction = coordinate.split(".")` raises `ValueError` (three parts),
modelled by the `none` result. -/
theorem C7_truncateCoordinate_counterexample :
    truncateCoordinate "1.2.3" 4 = none := by decide

/-- C7 (amended): `truncateCoordinate` truncates the fractional part to at
most 4 digits without rounding, is a no-op on inputs with no fractional part
or at most 4 fractional digits, is idempotent, and has no failure mode for
any input string containing at most one dot (an input with two or more dots
raises `ValueError`). -/
theorem C7_truncateCoordinate_amended :
    (∀ s : String, '.' ∉ s.data → truncateCoordinate s 4 = some s) ∧
    (∀ w f : List Char, '.' ∉ w → '.' ∉ f →
        truncateCoordinate (String.mk (w ++ '.' :: f)) 4 =
          some (String.mk (w ++ '.' :: f.take 4))) ∧
    (∀ w f : List Char, '.' ∉ w → '.' ∉ f → f.length ≤ 4 →
        truncateCoordinate (String.mk (w ++ '.' :: f)) 4 =
          some (String.mk (w ++ '.' :: f))) ∧
    (∀ s t : String, truncateCoordinate s 4 = some t →
        truncateCoordinate t 4 = some t) ∧
    (∀ s : String, s.data.count '.' ≤ 1 → (truncateCoordinate s 4).isSome = true) := by
  refine ⟨fun s h => truncateCoordinate_no_dot h,
    fun w f hw hf => truncateCoordinate_split w f hw hf,
    fun w f hw hf hlen => ?_,
    fun s t h => truncateCoordinate_idem h,
    fun s h => truncateCoordinate_total h⟩
  rw [truncateCoordinate_split w f hw hf, List.take_of_length_le hlen]

/-- C7 witness: `"37.425812"` truncates to `"37.4258"`, which is a fixed
point. -/
theorem C7_truncateCoordinate_amended_witness :
    truncateCoordinate "37.425812" 4 = some "37.4258" ∧
    truncateCoordinate "37.4258" 4 = some "37.4258" := by
  constructor
  · have h := C7_truncateCoordinate_amended.2.1 ['3', '7']
      ['4', '2', '5', '8', '1', '2'] (by decide) (by decide)
    have e1 : String.mk (['3', '7'] ++ '.' :: ['4', '2', '5', '8', '1', '2']) =
        "37.425812" := by decide
    have e2 : String.mk (['3', '7'] ++ '.' ::
        (['4', '2', '5', '8', '1', '2'].take 4)) = "37.4258" := by decide
    rw [e1, e2] at h
    exact h
  · exact C7_truncateCoordinate_amended.2.2.2.1 "37.425812" "37.4258" (by decide)

/-! Forecast data model, `forecast.py`.

`Period.__init__` copies fields out of the period dict with `.get(k, "")`
defaults; `Forecast.__init__` reads `properties.elevation.value` and
`properties.periods` when the argument dict is truthy, and degrades to
`elevation = ""`, `periods = []` on a falsy (empty) argument.  An uncaught
exception inside the constructor (`KeyError`/`TypeError`/`AttributeError`
on malformed input) is modelled by a `none` result. -/

/-- A `Period` object (`forecast.py` lines 3-22): the fields copied out of
the period JSON dict, plus the dict itself. -/
structure PeriodObj where
  number : PyVal
  name : PyVal
  start_time : PyVal
  end_time : PyVal
  is_day_time : PyVal
  temperature : PyVal
  probability_of_precip : PyVal
  wind_speed : PyVal
  wind_direction : PyVal
  wind_gust : PyVal
  visibility : PyVal
  apparent_temperature : PyVal
  humidity : PyVal
  ride_score : PyVal
  icon : PyVal
  short_forecast : PyVal
  detailed_forecast : PyVal
  period_json : PyVal
deriving DecidableEq

/-- `Period.__init__`.  `none` models an uncaught exception: the argument is
not a dict (`.get` raises `AttributeError`), or `probabilityOfPrecipitation`
is present but not a dict (the chained `.get("value", "")` raises). -/
def periodInit : PyVal → Option PeriodObj
  | .dict kvs =>
      match kvs.getD "probabilityOfPrecipitation" (.dict .nil) with
      | .dict precipKvs =>
          some {
            number := kvs.getD "number" (.str "")
            name := kvs.getD "name" (.str "")
            start_time := kvs.getD "startTime" (.str "")
            end_time := kvs.getD "endTime" (.str "")
            is_day_time := kvs.getD "isDaytime" (.str "")
            temperature := kvs.getD "temperature" (.str "")
            probability_of_precip := precipKvs.getD "value" (.str "")
            wind_speed := kvs.getD "windSpeed" (.str "")
            wind_direction := kvs.getD "windDirection" (.str "")
            wind_gust := kvs.getD "windGust" (.str "")
            visibility := kvs.getD "visibility" (.str "")
            apparent_temperature := kvs.getD "apparent_temperature" (.str "")
            humidity := kvs.getD "humidity" (.str "")
            ride_score := kvs.getD "ride_score" (.str "")
            icon := kvs.getD "icon" (.str "")
            short_forecast := kvs.getD "shortForecast" (.str "")
            detailed_forecast := kvs.getD "detailedForecast" (.str "")
            period_json := .dict kvs }
      | _ => none
  | _ => none

/-- A `Forecast` object: elevation value and the list of `Period` objects. -/
structure ForecastObj where
  elevation : PyVal
  periods : List PeriodObj
deriving DecidableEq

/-- Map `periodInit` over the elements of a period list, failing if any
single constructor call raises. -/
def periodsInit : List PyVal → Option (List PeriodObj)
  | [] => some []
  | p :: ps =>
      match periodInit p, periodsInit ps with
      | some po, some pos => some (po :: pos)
      | _, _ => none

/-- `Forecast.__init__` (`forecast.py` lines 62-72).  A falsy argument gives
the empty forecast; otherwise `properties`, `properties["elevation"]["value"]`
and `properties["periods"]` are read with plain subscripts (`KeyError` /
`TypeError` on malformed input, modelled by `none`), and each period is built
with `Period(...)`. -/
def forecastInit (forecast_json : PyVal) : Option ForecastObj :=
  if forecast_json.truthy then
    match forecast_json with
    | .dict kvs =>
        match kvs.get? "properties" with
        | some (.dict propsKvs) =>
            match propsKvs.get? "elevation" with
            | some (.dict elevKvs) =>
                match elevKvs.get? "value" with
                | some elevation =>
                    match propsKvs.get? "periods" with
                    | some (.list ps) =>
                        (periodsInit ps.toList).map (fun periods =>
                          { elevation := elevation, periods := periods })
                    | _ => none
                | none => none
            | _ => none
        | _ => none
    | _ => none
  else some { elevation := .str "", periods := [] }

/-- `Forecast.is_empty` (`forecast.py` lines 100-101) returns
`self.elevation and self.periods`; this models the truthiness of that
returned value, which is what any boolean use of the method observes. -/
def ForecastObj.is_empty (f : ForecastObj) : Bool :=
  f.elevation.truthy && !f.periods.isEmpty

/-- C10: `Forecast.is_empty()` is truthy exactly when the forecast is
populated (truthy elevation and a non-empty period list) and falsy for the
empty `Forecast({})` — the opposite of what the name suggests. -/
theorem C10_is_empty_inverted :
    (∀ fobj : ForecastObj, forecastInit (.dict .nil) = some fobj →
        fobj.is_empty = false) ∧
    (∀ (fj : PyVal) (fobj : ForecastObj), forecastInit fj = some fobj →
        (fobj.is_empty = true ↔
          (fobj.elevation.truthy = true ∧ fobj.periods ≠ []))) := by
  constructor
  · intro fobj h
    have : forecastInit (.dict .nil) =
        some { elevation := .str "", periods := [] } := by decide
    rw [this] at h
    obtain rfl : ({ elevation := .str "", periods := [] } : ForecastObj) = fobj := by
      injection h
    decide
  · intro fj fobj _
    simp [ForecastObj.is_empty, List.isEmpty_iff]

/-- C10 witness: the empty forecast reports falsy, a populated one-period
forecast with elevation 100 reports truthy. -/
theorem C10_is_empty_inverted_witness :
    ({ elevation := .str "", periods := [] } : ForecastObj).is_empty = false ∧
    (∀ fobj : ForecastObj,
      forecastInit (.dict (.cons "properties" (.dict
        (.cons "elevation" (.dict (.cons "value" (.num 100) .nil))
          (.cons "periods" (.list (.cons (.dict .nil) .nil)) .nil))) .nil)) = some fobj →
      fobj.is_empty = true) := by
  constructor
  · exact C10_is_empty_inverted.1 { elevation := .str "", periods := [] } (by decide)
  · intro fobj h
    refine (C10_is_empty_inverted.2 _ fobj h).mpr ?_
    have : fobj = { elevation := .num 100, periods := [{
        number := .str "", name := .str "", start_time := .str "",
        end_time := .str "", is_day_time := .str "", temperature := .str "",
        probability_of_precip := .str "", wind_speed := .str "",
        wind_direction := .str "", wind_gust := .str "", visibility := .str "",
        apparent_temperature := .str "", humidity := .str "",
        ride_score := .str "", icon := .str "", short_forecast := .str "",
        detailed_forecast := .str "", period_json := .dict .nil }] } := by
      have hval : forecastInit (.dict (.cons "properties" (.dict
          (.cons "elevation" (.dict (.cons "value" (.num 100) .nil))
            (.cons "periods" (.list (.cons (.dict .nil) .nil)) .nil))) .nil)) =
          some { elevation := .num 100, periods := [{
            number := .str "", name := .str "", start_time := .str "",
            end_time := .str "", is_day_time := .str "", temperature := .str "",
            probability_of_precip := .str "", wind_speed := .str "",
            wind_direction := .str "", wind_gust := .str "", visibility := .str "",
            apparent_temperature := .str "", humidity := .str "",
            ride_score := .str "", icon := .str "", short_forecast := .str "",
            detailed_forecast := .str "", period_json := .dict .nil }] } := by decide
      rw [hval] at h
      exact (Option.some_inj.mp h).symm
    subst this
    refine ⟨by decide, by decide⟩

/-! TTL keyed store, `firestore_service.py`.

Each collection is modelled as an association list from document id to
document.  A document is its `to_dict()` payload; the `expiresAt` field is a
datetime, not a JSON value, so it is carried alongside the JSON-like payload
(timestamps are rationals: seconds on an absolute scale).  The getters are
modelled with explicit state passing: they return the read result together
with the possibly-changed collection (`doc_ref.delete()` on expiry). -/

/-- A Firestore document: payload fields plus the `expiresAt` timestamp
(`none` when the field is missing). -/
structure FsDoc where
  fields : PyDict
  expiresAt : Option ℚ
deriving DecidableEq

/-- One Firestore collection, keyed by document id. -/
abbrev FsCollection := List (String × FsDoc)

/-- Look up a document by id. -/
def fsGet? : FsCollection → String → Option FsDoc
  | [], _ => none
  | (k, d) :: tl, key => if k = key then some d else fsGet? tl key

/-- Python `doc_ref.delete()`: remove the document with the given id. -/
def fsDelete : FsCollection → String → FsCollection
  | [], _ => []
  | (k, d) :: tl, key => if k = key then tl else (k, d) :: fsDelete tl key

/-- `FirestoreService._is_expired` (`firestore_service.py` lines 49-53):
expired when `expiresAt` is missing (`if not expires_at: return True`) or
strictly in the past (`datetime.now(timezone.utc) > expires_at`). -/
def is_expired (now : ℚ) (expires_at : Option ℚ) : Bool :=
  match expires_at with
  | none => true
  | some t => decide (now > t)

/-- `FirestoreService._create_coordinate_doc_id`. -/
def coordinate_doc_id (latitude longitude : String) : String :=
  latitude ++ "_" ++ longitude

/-- `FirestoreService._create_gridpoint_doc_id`. -/
def gridpoint_doc_id (grid_id grid_x grid_y : String) : String :=
  grid_id ++ "_" ++ grid_x ++ "_" ++ grid_y

/-- `get_coordinate_to_gridpoints` (`firestore_service.py` lines 64-79):
return the whole document on a fresh hit; on an expired hit delete the
document and miss. -/
def get_coordinate_to_gridpoints (now : ℚ) (col : FsCollection)
    (latitude longitude : String) : Option FsDoc × FsCollection :=
  let doc_id := coordinate_doc_id latitude longitude
  match fsGet? col doc_id with
  | none => (none, col)
  | some doc =>
      if ¬ is_expired now doc.expiresAt then (some doc, col)
      else (none, fsDelete col doc_id)

/-- `get_gridpoints_to_forecast_url` (lines 100-115): returns
`data.get('forecastUrl')`; the Python result is a string or `None`
(`.null` models both the expired/absent miss and a missing field). -/
def get_gridpoints_to_forecast_url (now : ℚ) (col : FsCollection)
    (grid_id grid_x grid_y : String) : PyVal × FsCollection :=
  let doc_id := gridpoint_doc_id grid_id grid_x grid_y
  match fsGet? col doc_id with
  | none => (.null, col)
  | some doc =>
      if ¬ is_expired now doc.expiresAt then (doc.fields.getOrNone "forecastUrl", col)
      else (.null, fsDelete col doc_id)

/-- `get_gridpoints_to_forecast` (lines 134-151): on a fresh hit with a
truthy stored `forecast` string, return `json.loads` of it.  The field is
stored as `json.dumps(forecast)` and parsed back on read, so the stored
value is modelled already parsed; a stored JSON `null` reads back as Python
`None`, i.e. a miss-shaped result. -/
def get_gridpoints_to_forecast (now : ℚ) (col : FsCollection)
    (grid_id grid_x grid_y : String) : Option PyVal × FsCollection :=
  let doc_id := gridpoint_doc_id grid_id grid_x grid_y
  match fsGet? col doc_id with
  | none => (none, col)
  | some doc =>
      if ¬ is_expired now doc.expiresAt then
        match doc.fields.getOrNone "forecast" with
        | .null => (none, col)
        | v => (some v, col)
      else (none, fsDelete col doc_id)

/-- `get_alerts` (lines 170-187): same shape as the forecast getter, with
the `alerts` field and coordinate-keyed document ids. -/
def get_alerts (now : ℚ) (col : FsCollection)
    (latitude longitude : String) : Option PyVal × FsCollection :=
  let doc_id := coordinate_doc_id latitude longitude
  match fsGet? col doc_id with
  | none => (none, col)
  | some doc =>
      if ¬ is_expired now doc.expiresAt then
        match doc.fields.getOrNone "alerts" with
        | .null => (none, col)
        | v => (some v, col)
      else (none, fsDelete col doc_id)

/-- C4: in every cache namespace, a get performed strictly after the stored
entry's `expiresAt` misses and deletes the stale entry; the stored value is
never returned. -/
theorem C4_expired_reads_miss_and_evict
    (now t : ℚ) (col : FsCollection) (doc : FsDoc)
    (hexp : doc.expiresAt = some t) (hlt : t < now) :
    (∀ lat lon, fsGet? col (coordinate_doc_id lat lon) = some doc →
      get_coordinate_to_gridpoints now col lat lon =
        (none, fsDelete col (coordinate_doc_id lat lon))) ∧
    (∀ gid gx gy, fsGet? col (gridpoint_doc_id gid gx gy) = some doc →
      get_gridpoints_to_forecast_url now col gid gx gy =
        (.null, fsDelete col (gridpoint_doc_id gid gx gy))) ∧
    (∀ gid gx gy, fsGet? col (gridpoint_doc_id gid gx gy) = some doc →
      get_gridpoints_to_forecast now col gid gx gy =
        (none, fsDelete col (gridpoint_doc_id gid gx gy))) ∧
    (∀ lat lon, fsGet? col (coordinate_doc_id lat lon) = some doc →
      get_alerts now col lat lon =
        (none, fsDelete col (coordinate_doc_id lat lon))) := by
  have hexpired : is_expired now doc.expiresAt = true := by
    rw [hexp]
    simpa [is_expired] using hlt
  refine ⟨fun lat lon h => ?_, fun gid gx gy h => ?_,
    fun gid gx gy h => ?_, fun lat lon h => ?_⟩ <;>
    simp only [get_coordinate_to_gridpoints, get_gridpoints_to_forecast_url,
      get_gridpoints_to_forecast, get_alerts, h, hexpired, not_true_eq_false,
      if_false, reduceCtorEq]

/-- C4 witness: a store holding a single document that expired at time 5,
read at time 10, misses and is evicted in all four namespaces. -/
theorem C4_expired_reads_miss_and_evict_witness :
    get_coordinate_to_gridpoints 10
      [("40.1_-105.2", { fields := .nil, expiresAt := some 5 })] "40.1" "-105.2" =
      (none, []) ∧
    get_alerts 10
      [("40.1_-105.2", { fields := .nil, expiresAt := some 5 })] "40.1" "-105.2" =
      (none, []) := by
  have h := C4_expired_reads_miss_and_evict 10 5
    [("40.1_-105.2", { fields := .nil, expiresAt := some 5 })]
    { fields := .nil, expiresAt := some 5 } rfl (by decide)
  have h1 := h.1 "40.1" "-105.2" (by decide)
  have h2 := h.2.2.2 "40.1" "-105.2" (by decide)
  constructor
  · rw [h1]
    have : fsDelete [("40.1_-105.2", { fields := .nil, expiresAt := some 5 })]
        (coordinate_doc_id "40.1" "-105.2") = [] := by decide
    rw [this]
  · rw [h2]
    have : fsDelete [("40.1_-105.2", { fields := .nil, expiresAt := some 5 })]
        (coordinate_doc_id "40.1" "-105.2") = [] := by decide
    rw [this]

/-! Ride Quality Scorer, `ride_quality.py`. -/

mutual
/-- Python `str(v)` for the values reaching the regex fallback of
`_parse_wind_speed`.  Inner strings are rendered without quotes and
non-integral rationals as `num/den`; only the digit content of the result is
ever consumed (by the `(\d+)` search), and no claim exercises these shapes. -/
def pyStrChars : PyVal → List Char
  | .null => "None".data
  | .bool b => if b then "True".data else "False".data
  | .num q => if q.den = 1 then (toString q.num).data
              else (toString q.num).data ++ '/' :: (toString q.den).data
  | .str s => s.data
  | .list xs => '[' :: pyStrListChars xs ++ [']']
  | .dict kvs => '\x7b' :: pyStrDictChars kvs ++ ['\x7d']
def pyStrListChars : PyList → List Char
  | .nil => []
  | .cons v .nil => pyStrChars v
  | .cons v tl => pyStrChars v ++ ',' :: ' ' :: pyStrListChars tl
def pyStrDictChars : PyDict → List Char
  | .nil => []
  | .cons k v .nil => k.data ++ ':' :: ' ' :: pyStrChars v
  | .cons k v tl => k.data ++ ':' :: ' ' :: pyStrChars v ++ ',' :: ' ' :: pyStrDictChars tl
end

/-- `_parse_wind_speed` (`ride_quality.py` lines 40-47): `None` gives 0,
numbers (including bools, which are ints in Python) pass through as floats,
anything else is rendered with `str()` and searched for a first digit run;
no match gives 0. -/
def parse_wind_speed (wind_str : PyVal) : ℚ :=
  match wind_str with
  | .null => 0
  | .num q => q
  | .bool b => if b then 1 else 0
  | .str s =>
      match firstDigitRun s.data with
      | some n => (n : ℚ)
      | none => 0
  | v =>
      match firstDigitRun (pyStrChars v) with
      | some n => (n : ℚ)
      | none => 0

/-- `extract_features` (`ride_quality.py` lines 50-124): the 9-element
feature vector, `none` when the core temperature field is missing or any of
the final `float(...)` conversions raises (`TypeError`/`ValueError`, caught
by the surrounding `except`). -/
def extract_features (period : PyDict) : Option (List ℚ) :=
  match period.getOrNone "temperature" with
  | .null => none
  | temp =>
    let wind_speed := parse_wind_speed (period.getD "windSpeed" (.str "0 mph"))
    let precip_prob_raw := period.getD "probabilityOfPrecipitation" (.dict .nil)
    let precip_prob : PyVal :=
      match precip_prob_raw with
      | .dict d => let v := d.getD "value" (.num 0); if v.truthy then v else .num 0
      | .null => .num 0
      | v => v
    let is_day_raw := period.getD "isDaytime" (.bool true)
    let rh := period.getOrNone "relativeHumidity"
    let humidity0 : PyVal :=
      match rh with
      | .dict d => d.getOrNone "value"
      | .num q => .num q
      | .bool b => .num (if b then 1 else 0)
      | _ => .null
    let humidity1 := if humidity0 = .null then period.getOrNone "humidity" else humidity0
    let visibility0 := period.getOrNone "visibility"
    let wind_gust_raw := period.getOrNone "windGust"
    let apparent_temp0 := period.getOrNone "apparent_temperature"
    let gust? : Option ℚ :=
      if wind_gust_raw = .null then none else some (parse_wind_speed wind_gust_raw)
    let visibility := if visibility0 = .null then PyVal.num 10 else visibility0
    let humidity := if humidity1 = .null then PyVal.num 50 else humidity1
    let wind_gust : ℚ := gust?.getD (wind_speed * (13 / 10))
    match pyFloat temp, pyFloat precip_prob, pyFloat visibility, pyFloat humidity,
        (if apparent_temp0 = .null then pyFloat temp else pyFloat apparent_temp0) with
    | some tempF, some precipF, some visF, some humF, some appF =>
        some [tempF, wind_speed, precipF, visF, humF,
              (if is_day_raw.truthy then 1 else 0), wind_gust,
              wind_gust - wind_speed, appF]
    | _, _, _, _, _ => none

/-- The loaded regression model, abstract: batch prediction over feature
rows; `none` models an exception raised inside `model.predict` (caught by
`score_periods`). -/
structure MLModel where
  predict : List (List ℚ) → Option (List ℚ)

/-- The `enumerate` loop of `score_periods` (lines 140-144): index/feature
pairs for the periods whose features extract, in order. -/
def collectFeatures : List PyDict → Nat → List (Nat × List ℚ)
  | [], _ => []
  | p :: ps, i =>
      match extract_features p with
      | some f => (i, f) :: collectFeatures ps (i + 1)
      | none => collectFeatures ps (i + 1)

/-- List update at an index (`periods[idx] = ...`); the indices used are
always in range, so the out-of-range case is a no-op. -/
def modifyAtIdx : List PyDict → Nat → (PyDict → PyDict) → List PyDict
  | [], _, _ => []
  | p :: ps, 0, f => f p :: ps
  | p :: ps, n + 1, f => p :: modifyAtIdx ps n f

/-- The assignment loop of `score_periods` (lines 151-153):
`periods[idx]["ride_score"] = round(float(max(0, min(100, score))), 1)`. -/
def applyScores (periods : List PyDict) : List (Nat × ℚ) → List PyDict
  | [] => periods
  | (idx, score) :: rest =>
      applyScores (modifyAtIdx periods idx
        (fun p => p.set "ride_score" (.num (round1 (max 0 (min 100 score)))))) rest

/-- `score_periods` (`ride_quality.py` lines 127-157): no-op without a
model; collect features, batch-predict, clamp and assign; a prediction
failure leaves every period untouched. -/
def score_periods (model : Option MLModel) (periods : List PyDict) : List PyDict :=
  match model with
  | none => periods
  | some m =>
      let pairs := collectFeatures periods 0
      let features_list := pairs.map Prod.snd
      let valid_indices := pairs.map Prod.fst
      if features_list.isEmpty then periods
      else
        match m.predict features_list with
        | none => periods
        | some scores => applyScores periods (valid_indices.zip scores)

theorem PyDict.set_set_same (d : PyDict) (k : String) (v v' : PyVal) :
    (d.set k v).set k v' = d.set k v' := by
  match d with
  | .nil => simp [PyDict.set]
  | .cons k0 v0 tl =>
    by_cases h : k0 = k
    · simp [PyDict.set, h]
    · simp [PyDict.set, h, PyDict.set_set_same tl k v v']

theorem modifyAtIdx_get?_ne (ps : List PyDict) (idx i : Nat) (f : PyDict → PyDict)
    (h : i ≠ idx) : (modifyAtIdx ps idx f).get? i = ps.get? i := by
  induction ps generalizing idx i with
  | nil => simp [modifyAtIdx]
  | cons p ps ih =>
    cases idx with
    | zero =>
      cases i with
      | zero => exact absurd rfl h
      | succ j => simp [modifyAtIdx]
    | succ n =>
      cases i with
      | zero => simp [modifyAtIdx]
      | succ j => simpa [modifyAtIdx] using ih n j (fun he => h (by omega))

theorem modifyAtIdx_get?_eq {ps : List PyDict} {idx : Nat} {p : PyDict}
    (f : PyDict → PyDict) (h : ps.get? idx = some p) :
    (modifyAtIdx ps idx f).get? idx = some (f p) := by
  induction ps generalizing idx with
  | nil => simp at h
  | cons p0 ps ih =>
    cases idx with
    | zero =>
      simp only [List.get?_cons_zero, Option.some_inj] at h
      subst h
      simp [modifyAtIdx]
    | succ n =>
      simp only [List.get?_cons_succ] at h
      simpa [modifyAtIdx] using ih h

theorem applyScores_get?_not_mem {asg : List (Nat × ℚ)} {ps : List PyDict} {i : Nat}
    (h : i ∉ asg.map Prod.fst) : (applyScores ps asg).get? i = ps.get? i := by
  induction asg generalizing ps with
  | nil => rfl
  | cons a rest ih =>
    obtain ⟨idx, score⟩ := a
    simp only [List.map_cons, List.mem_cons, not_or] at h
    rw [applyScores, ih h.2, modifyAtIdx_get?_ne _ _ _ _ h.1]

theorem applyScores_get? (asg : List (Nat × ℚ)) (ps : List PyDict) (i : Nat)
    (p : PyDict) (h : ps.get? i = some p) :
    (applyScores ps asg).get? i = some p ∨
    ∃ s : ℚ, (applyScores ps asg).get? i =
      some (p.set "ride_score" (.num (round1 (max 0 (min 100 s))))) := by
  induction asg generalizing ps p with
  | nil => exact Or.inl h
  | cons a rest ih =>
    obtain ⟨idx, score⟩ := a
    rw [applyScores]
    by_cases hi : i = idx
    · subst hi
      have hmod := modifyAtIdx_get?_eq
        (fun p => p.set "ride_score" (.num (round1 (max 0 (min 100 score))))) h
      rcases ih _ _ hmod with h1 | ⟨s, h1⟩
      · exact Or.inr ⟨score, h1⟩
      · rw [PyDict.set_set_same] at h1
        exact Or.inr ⟨s, h1⟩
    · have hmod : (modifyAtIdx ps idx
          (fun p => p.set "ride_score" (.num (round1 (max 0 (min 100 score)))))).get? i =
          some p := by
        rw [modifyAtIdx_get?_ne _ _ _ _ hi]
        exact h
      exact ih _ _ hmod

theorem collectFeatures_mem {ps : List PyDict} {n i : Nat} {f : List ℚ}
    (h : (i, f) ∈ collectFeatures ps n) :
    ∃ j p, i = n + j ∧ ps.get? j = some p ∧ extract_features p = some f := by
  induction ps generalizing n with
  | nil => simp [collectFeatures] at h
  | cons p0 ps ih =>
    rw [collectFeatures] at h
    cases hx : extract_features p0 with
    | some f0 =>
      rw [hx] at h
      rcases List.mem_cons.mp h with h1 | h1
      · injection h1 with h1a h1b
        subst h1a
        subst h1b
        exact ⟨0, p0, by omega, rfl, hx⟩
      · obtain ⟨j, p, hij, hget, hex⟩ := ih h1
        exact ⟨j + 1, p, by omega, by simpa using hget, hex⟩
    | none =>
      rw [hx] at h
      obtain ⟨j, p, hij, hget, hex⟩ := ih h
      exact ⟨j + 1, p, by omega, by simpa using hget, hex⟩

theorem extract_features_no_temperature {p : PyDict}
    (h : p.getOrNone "temperature" = .null) : extract_features p = none := by
  unfold extract_features
  rw [h]

theorem score_periods_some (m : MLModel) (periods : List PyDict) :
    score_periods (some m) periods =
      if ((collectFeatures periods 0).map Prod.snd).isEmpty then periods
      else
        match m.predict ((collectFeatures periods 0).map Prod.snd) with
        | none => periods
        | some scores =>
            applyScores periods (((collectFeatures periods 0).map Prod.fst).zip scores) :=
  rfl

/-- C5: `score_periods` leaves every period untouched when no model is
loaded or batch prediction fails; a period with a missing temperature field
is never assigned a ride score; and any assigned ride score is clamped to
[0, 100] and rounded to one decimal. -/
theorem C5_score_periods_clamps_and_skips :
    (∀ periods, score_periods none periods = periods) ∧
    (∀ (m : MLModel) periods,
        m.predict ((collectFeatures periods 0).map Prod.snd) = none →
        score_periods (some m) periods = periods) ∧
    (∀ (m : MLModel) (i : Nat) (p : PyDict) periods,
        periods.get? i = some p → p.getOrNone "temperature" = .null →
        (score_periods (some m) periods).get? i = some p) ∧
    (∀ (m : MLModel) (i : Nat) (p p' : PyDict) periods,
        periods.get? i = some p →
        (score_periods (some m) periods).get? i = some p' →
        p' = p ∨ ∃ q : ℚ, 0 ≤ q ∧ q ≤ 100 ∧ (∃ z : ℤ, q = (z : ℚ) / 10) ∧
          p' = p.set "ride_score" (.num q)) := by
  have key : ∀ (m : MLModel) (i : Nat) (p : PyDict) periods,
      periods.get? i = some p →
      (score_periods (some m) periods).get? i = some p ∨
      ∃ s : ℚ, (score_periods (some m) periods).get? i =
        some (p.set "ride_score" (.num (round1 (max 0 (min 100 s))))) := by
    intro m i p periods hget
    rw [score_periods_some]
    by_cases hemp : ((collectFeatures periods 0).map Prod.snd).isEmpty = true
    · rw [if_pos hemp]
      exact Or.inl hget
    · rw [if_neg hemp]
      cases hpred : m.predict ((collectFeatures periods 0).map Prod.snd) with
      | none => exact Or.inl hget
      | some scores => exact applyScores_get? _ _ _ _ hget
  refine ⟨fun periods => rfl, ?_, ?_, ?_⟩
  · intro m periods hpred
    rw [score_periods_some]
    by_cases hemp : ((collectFeatures periods 0).map Prod.snd).isEmpty = true
    · rw [if_pos hemp]
    · rw [if_neg hemp, hpred]
  · intro m i p periods hget htemp
    have hnofeat := extract_features_no_temperature htemp
    rw [score_periods_some]
    by_cases hemp : ((collectFeatures periods 0).map Prod.snd).isEmpty = true
    · rw [if_pos hemp]
      exact hget
    · rw [if_neg hemp]
      cases hpred : m.predict ((collectFeatures periods 0).map Prod.snd) with
      | none => exact hget
      | some scores =>
        have hnot : i ∉ (((collectFeatures periods 0).map Prod.fst).zip scores).map
            Prod.fst := by
          intro hin
          obtain ⟨y, hy, hyi⟩ := List.mem_map.mp hin
          have h1 : y.1 ∈ (collectFeatures periods 0).map Prod.fst := by
            obtain ⟨a, b⟩ := y
            exact (List.of_mem_zip hy).1
          obtain ⟨z, hz, hzi⟩ := List.mem_map.mp h1
          obtain ⟨zi, zf⟩ := z
          obtain ⟨j, p0, hj, hget0, hex⟩ := collectFeatures_mem hz
          simp only at hzi
          rw [hzi, hyi] at hj
          subst hj
          rw [Nat.zero_add] at hget
          rw [hget] at hget0
          obtain rfl : p = p0 := by injection hget0
          rw [hnofeat] at hex
          exact absurd hex (by simp)
        rw [applyScores_get?_not_mem hnot]
        exact hget
  · intro m i p p' periods hget hout
    rcases key m i p periods hget with h1 | ⟨s, h1⟩
    · rw [hout] at h1
      exact Or.inl (Option.some_inj.mp h1)
    · rw [hout] at h1
      refine Or.inr ⟨round1 (max 0 (min 100 s)), ?_, ?_, round1_is_tenth _, ?_⟩
      · exact round1_nonneg (le_max_left 0 _)
      · exact round1_le_100 (max_le (by norm_num) (min_le_left 100 s))
      · exact Option.some_inj.mp h1

/-- C5 witness: with no model the list is unchanged; with a model whose
prediction raises, the list is unchanged; a period with no temperature
survives scoring untouched even when prediction succeeds. -/
theorem C5_score_periods_clamps_and_skips_witness :
    score_periods none [PyDict.cons "temperature" (.num 70) .nil] =
      [PyDict.cons "temperature" (.num 70) .nil] ∧
    score_periods (some { predict := fun _ => none })
      [PyDict.cons "temperature" (.num 70) .nil] =
      [PyDict.cons "temperature" (.num 70) .nil] ∧
    (score_periods (some { predict := fun rows => some (rows.map (fun _ => 250)) })
      [PyDict.cons "name" (.str "Tonight") .nil]).get? 0 =
      some (PyDict.cons "name" (.str "Tonight") .nil) := by
  refine ⟨C5_score_periods_clamps_and_skips.1 _, ?_, ?_⟩
  · exact C5_score_periods_clamps_and_skips.2.1 _ _ rfl
  · exact C5_score_periods_clamps_and_skips.2.2.1 _ 0 _ _ rfl (by decide)

/-! ISO timestamps.  `_match_timestamp_value` and `find_arrival_index` parse
period timestamps with `datetime.fromisoformat` after replacing `'Z'` with
`"+00:00"`.  The parser below models the grammar subset these timestamps
use: `YYYY-MM-DD[T or space HH[:MM[:SS[.ffffff]]][+HH:MM or -HH:MM]]`, with
calendar and range validation; `none` models `ValueError`. -/

/-- A parsed `datetime`: calendar fields plus an optional fixed UTC offset
in minutes (`none` = naive). -/
structure PyDateTime where
  year : Nat
  month : Nat
  day : Nat
  hour : Nat
  minute : Nat
  second : Nat
  microsecond : Nat
  offsetMinutes : Option Int
deriving DecidableEq

/-- Consume exactly `n` decimal digits. -/
def takeDigits (n : Nat) (cs : List Char) : Option (Nat × List Char) :=
  let ds := cs.take n
  if ds.length = n ∧ ds.all Char.isDigit then
    match digitsToNat? ds with
    | some v => some (v, cs.drop n)
    | none => none
  else none

/-- Consume one expected character. -/
def expectChar (c : Char) : List Char → Option (List Char)
  | [] => none
  | x :: xs => if x = c then some xs else none

/-- Gregorian leap years. -/
def isLeapYear (y : Nat) : Bool :=
  (y % 4 = 0 && y % 100 ≠ 0) || y % 400 = 0

/-- Days in a month, for date validation. -/
def daysInMonth (y m : Nat) : Nat :=
  if m = 2 then (if isLeapYear y then 29 else 28)
  else if m = 4 ∨ m = 6 ∨ m = 9 ∨ m = 11 then 30
  else 31

/-- Optional fractional-second part: `.` followed by 1 to 6 digits, scaled
to microseconds. -/
def parseFraction : List Char → Option (Nat × List Char)
  | '.' :: rest =>
      let ds := rest.takeWhile Char.isDigit
      if ds.length = 0 ∨ 6 < ds.length then none
      else
        match digitsToNat? ds with
        | some v => some (v * 10 ^ (6 - ds.length), rest.drop ds.length)
        | none => none
  | cs => some (0, cs)

/-- Trailing UTC offset `+HH:MM`/`-HH:MM`, or nothing (naive datetime);
must consume the rest of the string. -/
def parseTzOffset : List Char → Option (Option Int)
  | [] => some none
  | sign :: rest =>
      if sign = '+' ∨ sign = '-' then
        match takeDigits 2 rest with
        | some (oh, ':' :: rest2) =>
            match takeDigits 2 rest2 with
            | some (om, []) =>
                if oh ≤ 23 ∧ om ≤ 59 then
                  some (some (if sign = '-' then -((oh : Int) * 60 + om)
                              else (oh : Int) * 60 + om))
                else none
            | _ => none
        | _ => none
      else none

/-- `datetime.fromisoformat` on the grammar subset above. -/
def parseIso (cs : List Char) : Option PyDateTime := do
  let (y, rest) ← takeDigits 4 cs
  let rest ← expectChar '-' rest
  let (mo, rest) ← takeDigits 2 rest
  let rest ← expectChar '-' rest
  let (d, rest) ← takeDigits 2 rest
  if mo < 1 ∨ 12 < mo ∨ d < 1 ∨ daysInMonth y mo < d then none
  else
    match rest with
    | [] => some ⟨y, mo, d, 0, 0, 0, 0, none⟩
    | sep :: rest1 =>
        if sep ≠ 'T' ∧ sep ≠ ' ' then none
        else do
          let (h, rest2) ← takeDigits 2 rest1
          if 23 < h then none
          else
            match rest2 with
            | ':' :: rest3 => do
                let (mi, rest4) ← takeDigits 2 rest3
                if 59 < mi then none
                else
                  match rest4 with
                  | ':' :: rest5 => do
                      let (s, rest6) ← takeDigits 2 rest5
                      if 59 < s then none
                      else do
                        let (us, rest7) ← parseFraction rest6
                        let off ← parseTzOffset rest7
                        some ⟨y, mo, d, h, mi, s, us, off⟩
                  | _ => do
                      let off ← parseTzOffset rest4
                      some ⟨y, mo, d, h, mi, 0, 0, off⟩
            | _ => do
                let off ← parseTzOffset rest2
                some ⟨y, mo, d, h, 0, 0, 0, off⟩

/-! Supplementary Layer Merger, `weather.py` lines 218-282. -/

/-- The supplementary layer maps produced by `getGridpointData`: ISO
timestamp string keys to converted values, one map per layer (the Python
function returns them in one dict under these four keys, read back with
`.get(name, {})` in the merge). -/
structure GridpointData where
  windGust : PyDict
  visibility : PyDict
  apparentTemperature : PyDict
  relativeHumidity : PyDict
deriving DecidableEq

/-- The all-empty layer set (also what `getGridpointData` returns on any
upstream failure). -/
def GridpointData.empty : GridpointData := ⟨.nil, .nil, .nil, .nil⟩

/-- Same-hour scan of `_match_timestamp_value` (lines 232-245): first map
entry whose key parses to the same year/month/day/hour; unparseable keys
are skipped (`except: continue`).  Returns `.null` when nothing matches;
a matched value may itself be `.null` (Python returns that `None` and stops
scanning). -/
def findSameHour (pdt : PyDateTime) : PyDict → PyVal
  | .nil => .null
  | .cons ts val tl =>
      match parseIso (replaceZ ts.data) with
      | none => findSameHour pdt tl
      | some tdt =>
          if pdt.year = tdt.year ∧ pdt.month = tdt.month ∧ pdt.day = tdt.day ∧
              pdt.hour = tdt.hour then val
          else findSameHour pdt tl

/-- `_match_timestamp_value` (lines 218-247) for a string `start_time`:
exact key match first (a stored `None` does not count), then the same-hour
scan; `.null` models every way of returning `None`. -/
def match_timestamp_value_str (start_time : String) (data_map : PyDict) : PyVal :=
  if start_time = "" ∨ data_map = .nil then .null
  else
    let value := data_map.getOrNone start_time
    if value ≠ .null then value
    else
      match parseIso (replaceZ start_time.data) with
      | none => .null
      | some pdt => findSameHour pdt data_map

/-- `_match_timestamp_value` on the raw `period.get("startTime", "")` value.
A falsy value or empty map returns `None` before anything can raise.  For a
truthy non-string hashable value the exact lookup misses (the keys are
strings) and `start_time.replace(...)`/`fromisoformat` raises inside the
bare `except`, so `None` is returned; an unhashable value (list/dict)
raises `TypeError` at `data_map.get(start_time)` outside any handler,
modelled by `none`. -/
def match_timestamp_value (start_time : PyVal) (data_map : PyDict) : Option PyVal :=
  if ¬ start_time.truthy ∨ data_map = .nil then some .null
  else
    match start_time with
    | .str s => some (match_timestamp_value_str s data_map)
    | .list _ => none
    | .dict _ => none
    | _ => some .null

/-- One conditional enrichment assignment of the merge loop:
`if value is not None: period[field] = value`. -/
def mergeStep (p : PyDict) (field : String) (v : PyVal) : PyDict :=
  if v ≠ .null then p.set field v else p

/-- The per-period body of `_merge_gridpoint_data` (lines 265-282):
`startTime` is read once, then the four fields are conditionally set.
`none` models the uncaught `TypeError` of an unhashable `startTime`. -/
def mergePeriod (gd : GridpointData) (period : PyDict) : Option PyDict := do
  let start_time := period.getD "startTime" (.str "")
  let gust ← match_timestamp_value start_time gd.windGust
  let vis ← match_timestamp_value start_time gd.visibility
  let app ← match_timestamp_value start_time gd.apparentTemperature
  let hum ← match_timestamp_value start_time gd.relativeHumidity
  some (mergeStep (mergeStep (mergeStep (mergeStep period "windGust" gust)
    "visibility" vis) "apparent_temperature" app) "humidity" hum)

theorem PyDict.get?_set_self (d : PyDict) (k : String) (v : PyVal) :
    (d.set k v).get? k = some v := by
  match d with
  | .nil => simp [PyDict.set, PyDict.get?]
  | .cons k0 v0 tl =>
    by_cases h : k0 = k
    · simp [PyDict.set, PyDict.get?, h]
    · simp [PyDict.set, PyDict.get?, h, PyDict.get?_set_self tl k v]

theorem PyDict.get?_set_ne (d : PyDict) {k k' : String} (v : PyVal) (h : k' ≠ k) :
    (d.set k v).get? k' = d.get? k' := by
  match d with
  | .nil =>
    simp [PyDict.set, PyDict.get?, Ne.symm h]
  | .cons k0 v0 tl =>
    by_cases h0 : k0 = k
    · subst h0
      simp [PyDict.set, PyDict.get?, Ne.symm h]
    · simp only [PyDict.set, if_neg h0, PyDict.get?]
      by_cases h1 : k0 = k'
      · simp [h1]
      · simp [h1, PyDict.get?_set_ne tl v h]

theorem PyDict.set_eq_of_get? {d : PyDict} {k : String} {v : PyVal}
    (h : d.get? k = some v) : d.set k v = d := by
  match d with
  | .nil => simp [PyDict.get?] at h
  | .cons k0 v0 tl =>
    by_cases h0 : k0 = k
    · subst h0
      simp [PyDict.get?] at h
      subst h
      simp [PyDict.set]
    · simp only [PyDict.get?, if_neg h0] at h
      simp [PyDict.set, h0, PyDict.set_eq_of_get? h]

theorem mergeStep_get?_ne (p : PyDict) {field k : String} (v : PyVal)
    (h : k ≠ field) : (mergeStep p field v).get? k = p.get? k := by
  unfold mergeStep
  split
  · exact PyDict.get?_set_ne p v h
  · rfl

theorem mergeStep_get?_self_of_ne_null (p : PyDict) (field : String) {v : PyVal}
    (h : v ≠ .null) : (mergeStep p field v).get? field = some v := by
  unfold mergeStep
  rw [if_pos h]
  exact PyDict.get?_set_self p field v

theorem mergeStep_fix {p : PyDict} {field : String} {v : PyVal}
    (h : v ≠ .null → p.get? field = some v) : mergeStep p field v = p := by
  unfold mergeStep
  split
  · exact PyDict.set_eq_of_get? (h (by assumption))
  · rfl

theorem mergePeriod_eq {gd : GridpointData} {p p' : PyDict}
    (h : mergePeriod gd p = some p') :
    ∃ gust vis app hum,
      match_timestamp_value (p.getD "startTime" (.str "")) gd.windGust = some gust ∧
      match_timestamp_value (p.getD "startTime" (.str "")) gd.visibility = some vis ∧
      match_timestamp_value (p.getD "startTime" (.str "")) gd.apparentTemperature =
        some app ∧
      match_timestamp_value (p.getD "startTime" (.str "")) gd.relativeHumidity =
        some hum ∧
      p' = mergeStep (mergeStep (mergeStep (mergeStep p "windGust" gust)
        "visibility" vis) "apparent_temperature" app) "humidity" hum := by
  simp only [mergePeriod, bind, Option.bind] at h
  cases hg : match_timestamp_value (p.getD "startTime" (.str "")) gd.windGust with
  | none => rw [hg] at h; simp at h
  | some gust =>
    rw [hg] at h
    cases hv : match_timestamp_value (p.getD "startTime" (.str "")) gd.visibility with
    | none => rw [hv] at h; simp at h
    | some vis =>
      rw [hv] at h
      cases ha : match_timestamp_value (p.getD "startTime" (.str ""))
          gd.apparentTemperature with
      | none => rw [ha] at h; simp at h
      | some app =>
        rw [ha] at h
        cases hh : match_timestamp_value (p.getD "startTime" (.str ""))
            gd.relativeHumidity with
        | none => rw [hh] at h; simp at h
        | some hum =>
          rw [hh] at h
          simp only [Option.some.injEq] at h
          exact ⟨gust, vis, app, hum, rfl, rfl, rfl, rfl, h.symm⟩

/-- String membership in a Python list: `"x" in lst` compares with `==`,
and a string equals only an equal string. -/
def pyListHasStr : PyList → String → Bool
  | .nil, _ => false
  | .cons (.str s) tl, key => s = key || pyListHasStr tl key
  | .cons _ tl, key => pyListHasStr tl key

/-- Python `key in container` for the shapes reaching the merge guard:
key membership for dicts, element equality for lists, substring test for
strings; `none` models `TypeError` on other types. -/
def pyContains (container : PyVal) (key : String) : Option Bool :=
  match container with
  | .dict kvs => some (kvs.hasKey key)
  | .list xs => some (pyListHasStr xs key)
  | .str s => some (containsSub key.data s.data)
  | _ => none

/-- The `for period in periods` loop of `_merge_gridpoint_data`: every
element must be a dict (`period.get` on anything else raises
`AttributeError`, modelled by `none`). -/
def mergePeriodsList (gd : GridpointData) : List PyVal → Option (List PyVal)
  | [] => some []
  | (.dict p) :: rest => do
      let p' ← mergePeriod gd p
      let rest' ← mergePeriodsList gd rest
      some (.dict p' :: rest')
  | _ => none

/-- `_merge_gridpoint_data` (`weather.py` lines 250-282).  The guard
`if "properties" not in forecast_data or "periods" not in
forecast_data["properties"]: return` leaves the document untouched; on the
main path every period dict is enriched in place.  `none` models any
uncaught exception (non-dict subscripting, non-dict periods, unhashable
start times), which the caller `getForecast` turns into an empty forecast
without caching. -/
def merge_gridpoint_data (forecast_data : PyVal) (gd : GridpointData) : Option PyVal :=
  match pyContains forecast_data "properties" with
  | none => none
  | some false => some forecast_data
  | some true =>
      match forecast_data with
      | .dict fkvs =>
          let props := fkvs.getOrNone "properties"
          match pyContains props "periods" with
          | none => none
          | some false => some forecast_data
          | some true =>
              match props with
              | .dict pkvs =>
                  match pkvs.get? "periods" with
                  | some (.list ps) =>
                      match mergePeriodsList gd ps.toList with
                      | some ps' =>
                          some (.dict (fkvs.set "properties"
                            (.dict (pkvs.set "periods" (.list (PyList.ofList ps'))))))
                      | none => none
                  | _ => none
              | _ => none
      | _ => none

theorem match_timestamp_value_nil (st : PyVal) :
    match_timestamp_value st .nil = some .null := by
  simp [match_timestamp_value]

theorem mergeStep_null (p : PyDict) (field : String) :
    mergeStep p field .null = p := by
  simp [mergeStep]

theorem mergePeriod_empty (p : PyDict) :
    mergePeriod GridpointData.empty p = some p := by
  simp [mergePeriod, GridpointData.empty, match_timestamp_value_nil, bind,
    Option.bind, mergeStep_null]

theorem mergePeriodsList_empty (ps : List PyVal)
    (h : ∀ x ∈ ps, ∃ d, x = PyVal.dict d) :
    mergePeriodsList GridpointData.empty ps = some ps := by
  induction ps with
  | nil => rfl
  | cons x rest ih =>
    obtain ⟨d, rfl⟩ := h x (List.mem_cons_self x rest)
    have hrest := ih (fun y hy => h y (List.mem_cons.mpr (Or.inr hy)))
    simp [mergePeriodsList, mergePeriod_empty, hrest, bind, Option.bind]

/-- C8: merging all-empty layer maps leaves every period (and the whole
period list) unchanged; a merge sets only the four enrichment fields, and
each one exactly when `_match_timestamp_value` finds a (non-`None`) match in
the corresponding layer; every other field is untouched; and re-merging the
same layers is idempotent. -/
theorem C8_merge_additive_idempotent :
    (∀ p : PyDict, mergePeriod GridpointData.empty p = some p) ∧
    (∀ ps : List PyVal, (∀ x ∈ ps, ∃ d, x = PyVal.dict d) →
        mergePeriodsList GridpointData.empty ps = some ps) ∧
    (∀ (gd : GridpointData) (p p' : PyDict), mergePeriod gd p = some p' →
        ∀ k, k ≠ "windGust" → k ≠ "visibility" → k ≠ "apparent_temperature" →
          k ≠ "humidity" → p'.get? k = p.get? k) ∧
    (∀ (gd : GridpointData) (p p' : PyDict), mergePeriod gd p = some p' →
        ∃ gust vis app hum,
          match_timestamp_value (p.getD "startTime" (.str "")) gd.windGust =
            some gust ∧
          match_timestamp_value (p.getD "startTime" (.str "")) gd.visibility =
            some vis ∧
          match_timestamp_value (p.getD "startTime" (.str ""))
            gd.apparentTemperature = some app ∧
          match_timestamp_value (p.getD "startTime" (.str ""))
            gd.relativeHumidity = some hum ∧
          p'.get? "windGust" = (if gust ≠ .null then some gust else p.get? "windGust") ∧
          p'.get? "visibility" = (if vis ≠ .null then some vis else p.get? "visibility") ∧
          p'.get? "apparent_temperature" =
            (if app ≠ .null then some app else p.get? "apparent_temperature") ∧
          p'.get? "humidity" = (if hum ≠ .null then some hum else p.get? "humidity")) ∧
    (∀ (gd : GridpointData) (p p' : PyDict), mergePeriod gd p = some p' →
        mergePeriod gd p' = some p') := by
  refine ⟨mergePeriod_empty, mergePeriodsList_empty, ?_, ?_, ?_⟩
  · intro gd p p' hmp k h1 h2 h3 h4
    obtain ⟨g, v, a, hu, hg, hv, ha, hh, rfl⟩ := mergePeriod_eq hmp
    rw [mergeStep_get?_ne _ _ h4, mergeStep_get?_ne _ _ h3,
      mergeStep_get?_ne _ _ h2, mergeStep_get?_ne _ _ h1]
  · intro gd p p' hmp
    obtain ⟨g, v, a, hu, hg, hv, ha, hh, rfl⟩ := mergePeriod_eq hmp
    refine ⟨g, v, a, hu, hg, hv, ha, hh, ?_, ?_, ?_, ?_⟩
    · by_cases hn : g = PyVal.null
      · subst hn
        rw [if_neg (by simp)]
        rw [mergeStep_get?_ne _ _ (by decide), mergeStep_get?_ne _ _ (by decide),
          mergeStep_get?_ne _ _ (by decide), mergeStep_null]
      · rw [if_pos hn]
        rw [mergeStep_get?_ne _ _ (by decide), mergeStep_get?_ne _ _ (by decide),
          mergeStep_get?_ne _ _ (by decide), mergeStep_get?_self_of_ne_null _ _ hn]
    · by_cases hn : v = PyVal.null
      · subst hn
        rw [if_neg (by simp)]
        rw [mergeStep_get?_ne _ _ (by decide), mergeStep_get?_ne _ _ (by decide),
          mergeStep_null, mergeStep_get?_ne _ _ (by decide)]
      · rw [if_pos hn]
        rw [mergeStep_get?_ne _ _ (by decide), mergeStep_get?_ne _ _ (by decide),
          mergeStep_get?_self_of_ne_null _ _ hn]
    · by_cases hn : a = PyVal.null
      · subst hn
        rw [if_neg (by simp)]
        rw [mergeStep_get?_ne _ _ (by decide), mergeStep_null,
          mergeStep_get?_ne _ _ (by decide), mergeStep_get?_ne _ _ (by decide)]
      · rw [if_pos hn]
        rw [mergeStep_get?_ne _ _ (by decide), mergeStep_get?_self_of_ne_null _ _ hn]
    · by_cases hn : hu = PyVal.null
      · subst hn
        rw [if_neg (by simp)]
        rw [mergeStep_null, mergeStep_get?_ne _ _ (by decide),
          mergeStep_get?_ne _ _ (by decide), mergeStep_get?_ne _ _ (by decide)]
      · rw [if_pos hn]
        rw [mergeStep_get?_self_of_ne_null _ _ hn]
  · intro gd p p' hmp
    obtain ⟨g, v, a, hu, hg, hv, ha, hh, rfl⟩ := mergePeriod_eq hmp
    set S4 := mergeStep (mergeStep (mergeStep (mergeStep p "windGust" g)
      "visibility" v) "apparent_temperature" a) "humidity" hu with hS4
    have hstGet : S4.get? "startTime" = p.get? "startTime" := by
      rw [hS4, mergeStep_get?_ne _ _ (by decide), mergeStep_get?_ne _ _ (by decide),
        mergeStep_get?_ne _ _ (by decide), mergeStep_get?_ne _ _ (by decide)]
    have hst : S4.getD "startTime" (.str "") = p.getD "startTime" (.str "") := by
      simp only [PyDict.getD, hstGet]
    have hW : g ≠ PyVal.null → S4.get? "windGust" = some g := fun hn => by
      rw [hS4, mergeStep_get?_ne _ _ (by decide), mergeStep_get?_ne _ _ (by decide),
        mergeStep_get?_ne _ _ (by decide), mergeStep_get?_self_of_ne_null _ _ hn]
    have hV : v ≠ PyVal.null → S4.get? "visibility" = some v := fun hn => by
      rw [hS4, mergeStep_get?_ne _ _ (by decide), mergeStep_get?_ne _ _ (by decide),
        mergeStep_get?_self_of_ne_null _ _ hn]
    have hA : a ≠ PyVal.null → S4.get? "apparent_temperature" = some a := fun hn => by
      rw [hS4, mergeStep_get?_ne _ _ (by decide),
        mergeStep_get?_self_of_ne_null _ _ hn]
    have hH : hu ≠ PyVal.null → S4.get? "humidity" = some hu := fun hn => by
      rw [hS4, mergeStep_get?_self_of_ne_null _ _ hn]
    simp only [mergePeriod, bind, Option.bind, hst, hg, hv, ha, hh]
    rw [mergeStep_fix hW, mergeStep_fix hV, mergeStep_fix hA, mergeStep_fix hH]

/-- C8 witness: one period merged against a single exact-match wind-gust
layer gains exactly the `windGust` field; re-merging is a fixed point and
the temperature field is untouched. -/
theorem C8_merge_additive_idempotent_witness :
    mergePeriod
      ⟨.cons "2025-01-01T06:00:00+00:00" (.str "20 mph") .nil, .nil, .nil, .nil⟩
      (.cons "startTime" (.str "2025-01-01T06:00:00+00:00")
        (.cons "temperature" (.num 70) .nil)) =
      some (.cons "startTime" (.str "2025-01-01T06:00:00+00:00")
        (.cons "temperature" (.num 70)
          (.cons "windGust" (.str "20 mph") .nil))) ∧
    mergePeriod
      ⟨.cons "2025-01-01T06:00:00+00:00" (.str "20 mph") .nil, .nil, .nil, .nil⟩
      (.cons "startTime" (.str "2025-01-01T06:00:00+00:00")
        (.cons "temperature" (.num 70)
          (.cons "windGust" (.str "20 mph") .nil))) =
      some (.cons "startTime" (.str "2025-01-01T06:00:00+00:00")
        (.cons "temperature" (.num 70)
          (.cons "windGust" (.str "20 mph") .nil))) ∧
    (.cons "startTime" (.str "2025-01-01T06:00:00+00:00")
        (.cons "temperature" (.num 70)
          (.cons "windGust" (.str "20 mph") .nil)) : PyDict).get? "temperature" =
      (.cons "startTime" (.str "2025-01-01T06:00:00+00:00")
        (.cons "temperature" (.num 70) .nil) : PyDict).get? "temperature" := by
  have h1 : mergePeriod
      ⟨.cons "2025-01-01T06:00:00+00:00" (.str "20 mph") .nil, .nil, .nil, .nil⟩
      (.cons "startTime" (.str "2025-01-01T06:00:00+00:00")
        (.cons "temperature" (.num 70) .nil)) =
      some (.cons "startTime" (.str "2025-01-01T06:00:00+00:00")
        (.cons "temperature" (.num 70)
          (.cons "windGust" (.str "20 mph") .nil))) := by decide
  refine ⟨h1, C8_merge_additive_idempotent.2.2.2.2 _ _ _ h1,
    C8_merge_additive_idempotent.2.2.1 _ _ _ h1 "temperature"
      (by decide) (by decide) (by decide) (by decide)⟩

/-! Ride Timing Optimizer, `optimization.py`. -/

/-- Python exceptions distinguished by the handlers in `optimization.py`. -/
inductive PyExc where
  | nameError
  | valueError
  | typeError
deriving DecidableEq

/-- The names bound at module level in `optimization.py`: the module imports
only `logging` (lines 1-3) and defines `logger` and its five functions.
`datetime` and `timezone` are neither imported here nor builtins. -/
def optimizationModuleGlobals : List String :=
  ["logging", "logger", "_get_ride_score", "_get_start_time", "scan_break",
   "scan_departure_window", "find_arrival_index"]

/-- Evaluating a bare name in `optimization.py`: `NameError` when the name
is not bound in the module globals. -/
def evalModuleName (n : String) : Except PyExc Unit :=
  if n ∈ optimizationModuleGlobals then .ok () else .error .nameError

/-- Day number of a civil date (days since 1970-01-01), Hinnant's algorithm
with truncating integer division, as used for UTC conversion. -/
def daysFromCivil (y m d : Nat) : Int :=
  let yr : Int := if m ≤ 2 then (y : Int) - 1 else (y : Int)
  let era : Int := (if 0 ≤ yr then yr else yr - 399) / 400
  let yoe : Int := yr - era * 400
  let mp : Int := ((m : Int) + 9) % 12
  let doy : Int := (153 * mp + 2) / 5 + (d : Int) - 1
  let doe : Int := yoe * 365 + yoe / 4 - yoe / 100 + doy
  era * 146097 + doe - 719468

/-- Absolute UTC seconds of a parsed datetime (`astimezone(timezone.utc)`
followed by comparison); a naive datetime is taken at UTC. -/
def PyDateTime.toUtcSeconds (dt : PyDateTime) : ℚ :=
  ((daysFromCivil dt.year dt.month dt.day * 86400 + (dt.hour : Int) * 3600 +
    (dt.minute : Int) * 60 + (dt.second : Int) -
    (dt.offsetMinutes.getD 0) * 60 : Int) : ℚ) + (dt.microsecond : ℚ) / 1000000

/-- The loop body of `find_arrival_index` (`optimization.py` lines 181-188).
The call `datetime.fromisoformat(...)` first evaluates the bare name
`datetime`, which raises `NameError` (the module never imports it); the
parse-and-compare continuation after that is therefore unreachable. -/
def find_arrival_index_body (period : PeriodObj) (eta : ℚ) : Except PyExc Bool := do
  let _ ← evalModuleName "datetime"
  match period.start_time, period.end_time with
  | .str s, .str e =>
      match parseIso s.data, parseIso e.data with
      | some sdt, some edt =>
          .ok (decide (sdt.toUtcSeconds ≤ eta ∧ eta ≤ edt.toUtcSeconds))
      | _, _ => .error .valueError
  | _, _ => .error .typeError

/-- The `for i, period in enumerate(periods)` loop of `find_arrival_index`;
the `except (ValueError, TypeError): continue` clause catches only those
two exception types. -/
def findArrivalGo (eta : ℚ) : List PeriodObj → Nat → Except PyExc (Option Nat)
  | [], _ => .ok none
  | p :: rest, i =>
      match find_arrival_index_body p eta with
      | .ok true => .ok (some i)
      | .ok false => findArrivalGo eta rest (i + 1)
      | .error e =>
          if e = .valueError ∨ e = .typeError then findArrivalGo eta rest (i + 1)
          else .error e

/-- `find_arrival_index` (`optimization.py` lines 179-189). -/
def find_arrival_index (periods : List PeriodObj) (eta : ℚ) :
    Except PyExc (Option Nat) :=
  findArrivalGo eta periods 0

/-- `_get_ride_score` (lines 6-21) on a period dict: `None` and `""` give
`None`, otherwise `float(score)` with `TypeError`/`ValueError` mapped to
`None`.  (The `hasattr` branch serves `Period` objects; the periods handled
by the departure scan are dicts.) -/
def get_ride_score (period : PyDict) : Option ℚ :=
  match period.getOrNone "ride_score" with
  | .null => none
  | .str "" => none
  | v => pyFloat v

/-- `_get_start_time` (lines 24-30) on a period dict. -/
def get_start_time (period : PyDict) : PyVal :=
  period.getD "startTime" (.str "")

/-- One scenario of the departure scan: departure hour, rounded average
score, departure time. -/
structure Scenario where
  start_hour : Nat
  average_score : ℚ
  departure_time : PyVal
deriving DecidableEq

/-- The returned departure plan (Python nests `departure_time` and
`average_score` in a `golden_window` dict; flattened here). -/
structure DeparturePlan where
  departure_time : PyVal
  average_score : ℚ
  improvement : ℚ
deriving DecidableEq

/-- The inner waypoint loop for one departure hour (lines 135-147): the
score of waypoint `i` at period `start_hour + i`; invalid (`none`) when any
index is out of range or any period is unscored. -/
def scenarioScoresAux (start_hour : Nat) : List (List PyDict) → Nat → Option (List ℚ)
  | [], _ => some []
  | wp :: rest, waypoint_idx =>
      match wp.get? (start_hour + waypoint_idx) with
      | none => none
      | some period =>
          match get_ride_score period with
          | none => none
          | some s => (scenarioScoresAux start_hour rest (waypoint_idx + 1)).map (s :: ·)

/-- Build the scenario for one departure hour (lines 149-156); the
departure time reads `all_waypoint_periods[0][start_hour]`, which is in
range whenever the scenario is valid. -/
def buildScenario (wps : List (List PyDict)) (start_hour : Nat) : Option Scenario :=
  match scenarioScoresAux start_hour wps 0 with
  | none => none
  | some scores =>
      if scores.isEmpty then none
      else some {
        start_hour := start_hour
        average_score := round1 (scores.sum / scores.length)
        departure_time := get_start_time (((wps.headD []).get? start_hour).getD .nil) }

/-- The `for start_hour in range(max_start)` loop collecting valid
scenarios. -/
def computeScenarios (wps : List (List PyDict)) (max_start : Nat) : List Scenario :=
  (List.range max_start).filterMap (buildScenario wps)

/-- `min(len(wp) for wp in all_waypoint_periods)`; only used on non-empty
input (Python would raise on an empty generator). -/
def minLen : List (List PyDict) → Nat
  | [] => 0
  | [wp] => wp.length
  | wp :: rest => min wp.length (minLen rest)

/-- `max_start = min(hours_to_scan, min_periods - num_waypoints + 1)`
(line 125), computed in ℤ because the second operand can be negative. -/
def departureMaxStart (wps : List (List PyDict)) (hours_to_scan : Nat) : ℤ :=
  min (hours_to_scan : ℤ) ((minLen wps : ℤ) - (wps.length : ℤ) + 1)

/-- Python `max(scenarios, key=avg)`: fold keeping the first maximum (a
later element replaces only on strictly greater key). -/
def maxByAvg : Scenario → List Scenario → Scenario
  | best, [] => best
  | best, s :: rest =>
      maxByAvg (if s.average_score > best.average_score then s else best) rest

/-- `scan_departure_window` (`optimization.py` lines 98-177); the default
`hours_to_scan` is 12. -/
def scan_departure_window (all_waypoint_periods : List (List PyDict))
    (hours_to_scan : Nat) : Option DeparturePlan :=
  if all_waypoint_periods.isEmpty then none
  else if minLen all_waypoint_periods = 0 then none
  else if departureMaxStart all_waypoint_periods hours_to_scan ≤ 0 then none
  else
    match computeScenarios all_waypoint_periods
        (departureMaxStart all_waypoint_periods hours_to_scan).toNat with
    | [] => none
    | s0 :: rest =>
        let best := maxByAvg s0 rest
        match (s0 :: rest).find? (fun s => s.start_hour == 0) with
        | none => none
        | some now_scenario =>
            some { departure_time := best.departure_time
                   average_score := best.average_score
                   improvement :=
                     round1 (best.average_score - now_scenario.average_score) }

/-- C9: `find_arrival_index` raises `NameError` on every non-empty period
list — `optimization.py` calls `datetime.fromisoformat` without importing
`datetime`, and its handler catches only `ValueError`/`TypeError` — and
returns `None` only for the empty list. -/
theorem C9_find_arrival_index_raises_name_error :
    (∀ (periods : List PeriodObj) (eta : ℚ), periods ≠ [] →
        find_arrival_index periods eta = .error .nameError) ∧
    (∀ eta : ℚ, find_arrival_index [] eta = .ok none) := by
  have hbody : ∀ (p : PeriodObj) (eta : ℚ),
      find_arrival_index_body p eta = .error .nameError := fun p eta => rfl
  refine ⟨?_, fun eta => rfl⟩
  intro periods eta hne
  cases periods with
  | nil => exact absurd rfl hne
  | cons p rest =>
    show findArrivalGo eta (p :: rest) 0 = .error .nameError
    rw [findArrivalGo, hbody]
    simp

/-- C9 witness: a singleton period list raises, the empty list returns
`None`. -/
theorem C9_find_arrival_index_raises_name_error_witness :
    find_arrival_index [{
      number := .str "", name := .str "",
      start_time := .str "2025-01-01T06:00:00+00:00",
      end_time := .str "2025-01-01T07:00:00+00:00",
      is_day_time := .str "", temperature := .str "",
      probability_of_precip := .str "", wind_speed := .str "",
      wind_direction := .str "", wind_gust := .str "", visibility := .str "",
      apparent_temperature := .str "", humidity := .str "",
      ride_score := .str "", icon := .str "", short_forecast := .str "",
      detailed_forecast := .str "", period_json := .dict .nil }] 0 =
      .error .nameError ∧
    find_arrival_index ([] : List PeriodObj) 0 = .ok none :=
  ⟨C9_find_arrival_index_raises_name_error.1 _ 0 (by simp),
   C9_find_arrival_index_raises_name_error.2 0⟩

theorem maxByAvg_ge (rest : List Scenario) (best : Scenario) :
    best.average_score ≤ (maxByAvg best rest).average_score ∧
    ∀ s ∈ rest, s.average_score ≤ (maxByAvg best rest).average_score := by
  induction rest generalizing best with
  | nil =>
    refine ⟨le_refl _, ?_⟩
    intro s hs
    simp at hs
  | cons s0 rest ih =>
    have hstep : maxByAvg best (s0 :: rest) =
        maxByAvg (if s0.average_score > best.average_score then s0 else best) rest :=
      rfl
    obtain ⟨ih1, ih2⟩ := ih (if s0.average_score > best.average_score then s0 else best)
    have hbest : best.average_score ≤
        (if s0.average_score > best.average_score then s0 else best).average_score := by
      by_cases hc : s0.average_score > best.average_score
      · rw [if_pos hc]; linarith
      · rw [if_neg hc]
    have hs0 : s0.average_score ≤
        (if s0.average_score > best.average_score then s0 else best).average_score := by
      by_cases hc : s0.average_score > best.average_score
      · rw [if_pos hc]
      · rw [if_neg hc]; exact not_lt.mp hc
    refine ⟨hstep ▸ le_trans hbest ih1, ?_⟩
    intro s hs
    rcases List.mem_cons.mp hs with rfl | hs'
    · exact hstep ▸ le_trans hs0 ih1
    · exact hstep ▸ ih2 s hs'

/-- C6: whenever `scan_departure_window` returns a recommendation its
improvement is at least 0 (the best scenario's average is never below the
leave-now scenario's), and with no valid scenario it returns `None`. -/
theorem C6_departure_improvement_nonneg :
    (∀ (wps : List (List PyDict)) (hrs : Nat) (r : DeparturePlan),
        scan_departure_window wps hrs = some r → 0 ≤ r.improvement) ∧
    (∀ (wps : List (List PyDict)) (hrs : Nat),
        computeScenarios wps (departureMaxStart wps hrs).toNat = [] →
        scan_departure_window wps hrs = none) := by
  constructor
  · intro wps hrs r h
    unfold scan_departure_window at h
    by_cases h1 : wps.isEmpty = true
    · rw [if_pos h1] at h
      exact absurd h (by simp)
    rw [if_neg h1] at h
    by_cases h2 : minLen wps = 0
    · rw [if_pos h2] at h
      exact absurd h (by simp)
    rw [if_neg h2] at h
    by_cases h3 : departureMaxStart wps hrs ≤ 0
    · rw [if_pos h3] at h
      exact absurd h (by simp)
    rw [if_neg h3] at h
    rcases hsc : computeScenarios wps (departureMaxStart wps hrs).toNat with
      _ | ⟨s0, rest⟩
    · rw [hsc] at h
      exact absurd h (by simp)
    rw [hsc] at h
    replace h :
        (match (s0 :: rest).find? (fun s => s.start_hour == 0) with
          | none => none
          | some now_scenario =>
              some { departure_time := (maxByAvg s0 rest).departure_time
                     average_score := (maxByAvg s0 rest).average_score
                     improvement := round1 ((maxByAvg s0 rest).average_score -
                       now_scenario.average_score) }) = some r := h
    rcases hfind : (s0 :: rest).find? (fun s => s.start_hour == 0) with _ | now
    · rw [hfind] at h
      exact absurd h (by simp)
    rw [hfind] at h
    simp only [Option.some.injEq] at h
    subst h
    have hnow : now ∈ s0 :: rest := List.mem_of_find?_eq_some hfind
    obtain ⟨hm1, hm2⟩ := maxByAvg_ge rest s0
    have hle : now.average_score ≤ (maxByAvg s0 rest).average_score := by
      rcases List.mem_cons.mp hnow with rfl | hmem
      · exact hm1
      · exact hm2 now hmem
    exact round1_nonneg (by linarith)
  · intro wps hrs hempty
    unfold scan_departure_window
    by_cases h1 : wps.isEmpty = true
    · rw [if_pos h1]
    rw [if_neg h1]
    by_cases h2 : minLen wps = 0
    · rw [if_pos h2]
    rw [if_neg h2]
    by_cases h3 : departureMaxStart wps hrs ≤ 0
    · rw [if_pos h3]
    rw [if_neg h3, hempty]

/-- C6 witness: a single waypoint scored 70 yields a plan with improvement
0 (≥ 0); a single waypoint with an unscored period has no valid scenario
and yields no recommendation. -/
theorem C6_departure_improvement_nonneg_witness :
    (0 : ℚ) ≤ (DeparturePlan.mk (.str "t0") 70 0).improvement ∧
    scan_departure_window [[PyDict.nil]] 12 = none := by
  constructor
  · refine C6_departure_improvement_nonneg.1
      [[PyDict.cons "ride_score" (.num 70) (.cons "startTime" (.str "t0") .nil)]] 12 _ ?_
    norm_num [scan_departure_window, computeScenarios, buildScenario, scenarioScoresAux,
      get_ride_score, get_start_time, minLen, departureMaxStart, maxByAvg, round1,
      roundHalfEven, pyFloat, PyDict.getOrNone, PyDict.getD, PyDict.get?, PyVal.truthy,
      List.range_succ, List.filterMap, List.find?]
    decide
  · exact C6_departure_improvement_nonneg.2 [[PyDict.nil]] 12 (by decide)

/-! Grid Resolver, `weather.py` lines 48-113, and the `Point` value type
(`coordinates.py` lines 3-22). -/

/-- A `Point`.  `grid_x`/`grid_y` are always built with `str(...)`;
`grid_id` is stored raw but is a string for every value the API returns,
so all three fields are modelled as strings. -/
structure Point where
  grid_id : String
  grid_x : String
  grid_y : String
deriving DecidableEq

/-- `Point.is_not_empty`: all three fields non-empty. -/
def Point.is_not_empty (p : Point) : Bool :=
  p.grid_id ≠ "" && p.grid_x ≠ "" && p.grid_y ≠ ""

/-- The empty sentinel `Point("", "", "")`. -/
def emptyPoint : Point := ⟨"", "", ""⟩

/-- Python `str(v)` as a `String`. -/
def pyStr (v : PyVal) : String := String.mk (pyStrChars v)

/-- A JSON field used as a `Point` component: strings stay themselves,
anything else is rendered with `str` (which preserves non-emptiness and
equality for the values that occur). -/
def gridFieldString : PyVal → String
  | .str s => s
  | v => pyStr v

/-- An HTTP response as consumed by this code: status flag (`response.ok`),
parsed JSON body (`none` when `response.json()` raises) and the
`Cache-Control` header. -/
structure HttpResp where
  ok : Bool
  body : Option PyVal
  cacheControl : String

/-- The coordinate-cache document read by `getPoints`: `gridId`, `gridX`,
`gridY` as stored by `set_coordinate_to_gridpoints` (which always writes
all three). -/
structure CachedGridpoint where
  gridId : String
  gridX : Int
  gridY : Int

/-- Take characters up to (excluding) the first occurrence of `pat`; with
`dropThroughFirst` this models `s.split(pat)[1]`. -/
def takeUntilSub (pat : List Char) : List Char → List Char
  | [] => []
  | c :: cs =>
      if startsWithChars pat (c :: cs) then []
      else c :: takeUntilSub pat cs

/-- `max_age_hours` (`weather.py` lines 75-81): the text between
`"max-age="` and the next comma interpreted as an int, divided by 3600;
any failure (bare `except`) falls back to 24 hours. -/
def pointsMaxAgeHours (cacheControl : String) : ℚ :=
  if containsSub "max-age=".data cacheControl.data then
    match dropThroughFirst "max-age=".data cacheControl.data with
    | some rest =>
        match pyIntOfString (takeUntilChar ',' (takeUntilSub "max-age=".data rest)) with
        | some n => (n : ℚ) / 3600
        | none => 24
    | none => 24
  else 24

/-- The two Firestore writes of a successful `getPoints` miss path, sharing
one expiry. -/
structure PointsWrites where
  grid_id : String
  grid_x : String
  grid_y : String
  forecast_url : PyVal
  expires_at : ℚ
deriving DecidableEq

/-- `getPoints` (`weather.py` lines 48-113), with the external effects as
parameters: the coordinate-cache read (`none` is a miss; the document always
carries the three grid fields it was written with), the HTTP fetch of the
points URL (`.error` is a requests exception), whether the two Firestore
writes succeed (their failure is caught at lines 108-110), and the current
time.  Returns the resolved point and the writes performed.  Every failure
branch ends in the `Point("", "", "")` sentinel — the whole miss path sits
inside `try/except Exception`, so the embedding is a total function. -/
def getPoints (cached : Option CachedGridpoint) (fetch : Except Unit HttpResp)
    (storeOk : Bool) (now : ℚ) : Point × Option PointsWrites :=
  match cached with
  | some c =>
      ({ grid_id := c.gridId, grid_x := toString c.gridX,
         grid_y := toString c.gridY }, none)
  | none =>
      match fetch with
      | .error _ => (emptyPoint, none)
      | .ok resp =>
          if ¬ resp.ok then (emptyPoint, none)
          else
            match resp.body with
            | none => (emptyPoint, none)
            | some response_json =>
                match response_json with
                | .dict kvs =>
                    match kvs.get? "properties" with
                    | none => (emptyPoint, none)
                    | some props =>
                        match props with
                        | .dict pkvs =>
                            if ¬ pkvs.hasKey "gridId" ∨ ¬ pkvs.hasKey "gridX" ∨
                                ¬ pkvs.hasKey "gridY" ∨ ¬ pkvs.hasKey "forecastHourly"
                            then (emptyPoint, none)
                            else
                              let grid_id := gridFieldString (pkvs.getOrNone "gridId")
                              let grid_x := pyStr (pkvs.getOrNone "gridX")
                              let grid_y := pyStr (pkvs.getOrNone "gridY")
                              if storeOk then
                                (⟨grid_id, grid_x, grid_y⟩,
                                 some ⟨grid_id, grid_x, grid_y,
                                   pkvs.getOrNone "forecastHourly",
                                   now + pointsMaxAgeHours resp.cacheControl * 3600⟩)
                              else (emptyPoint, none)
                        | _ => (emptyPoint, none)
                | _ => (emptyPoint, none)

/-- C3: `getPoints` never raises; a network exception, parse failure,
non-success status, non-dict body, missing `properties`, non-dict
`properties`, any missing required field, and a Firestore write failure all
degrade to the empty sentinel with nothing stored. -/
theorem C3_getPoints_degrades_to_sentinel :
    (∀ storeOk now, getPoints none (.error ()) storeOk now = (emptyPoint, none)) ∧
    (∀ resp storeOk now, resp.ok = false →
        getPoints none (.ok resp) storeOk now = (emptyPoint, none)) ∧
    (∀ resp storeOk now, resp.body = none →
        getPoints none (.ok resp) storeOk now = (emptyPoint, none)) ∧
    (∀ resp body storeOk now, resp.body = some body → (∀ kvs, body ≠ .dict kvs) →
        getPoints none (.ok resp) storeOk now = (emptyPoint, none)) ∧
    (∀ resp kvs storeOk now, resp.body = some (.dict kvs) →
        kvs.get? "properties" = none →
        getPoints none (.ok resp) storeOk now = (emptyPoint, none)) ∧
    (∀ resp kvs props storeOk now, resp.body = some (.dict kvs) →
        kvs.get? "properties" = some props → (∀ pkvs, props ≠ .dict pkvs) →
        getPoints none (.ok resp) storeOk now = (emptyPoint, none)) ∧
    (∀ resp kvs pkvs storeOk now, resp.body = some (.dict kvs) →
        kvs.get? "properties" = some (.dict pkvs) →
        (¬ pkvs.hasKey "gridId" ∨ ¬ pkvs.hasKey "gridX" ∨ ¬ pkvs.hasKey "gridY" ∨
          ¬ pkvs.hasKey "forecastHourly") →
        getPoints none (.ok resp) storeOk now = (emptyPoint, none)) ∧
    (∀ resp kvs pkvs now, resp.ok = true → resp.body = some (.dict kvs) →
        kvs.get? "properties" = some (.dict pkvs) →
        getPoints none (.ok resp) false now = (emptyPoint, none)) := by
  refine ⟨fun storeOk now => rfl, ?_, ?_, ?_, ?_, ?_, ?_, ?_⟩
  · intro resp storeOk now h
    simp [getPoints, h]
  · intro resp storeOk now h
    simp [getPoints, h]
  · intro resp body storeOk now h hnd
    cases body with
    | dict kvs => exact absurd rfl (hnd kvs)
    | null => simp [getPoints, h]
    | bool b => simp [getPoints, h]
    | num q => simp [getPoints, h]
    | str s => simp [getPoints, h]
    | list xs => simp [getPoints, h]
  · intro resp kvs storeOk now h hp
    simp [getPoints, h, hp]
  · intro resp kvs props storeOk now h hp hnd
    cases props with
    | dict pkvs => exact absurd rfl (hnd pkvs)
    | null => simp [getPoints, h, hp]
    | bool b => simp [getPoints, h, hp]
    | num q => simp [getPoints, h, hp]
    | str s => simp [getPoints, h, hp]
    | list xs => simp [getPoints, h, hp]
  · intro resp kvs pkvs storeOk now h hp hmiss
    by_cases hok : resp.ok = true
    · simp only [getPoints, h, hp, hok]
      rw [if_neg (by simp), if_pos hmiss]
    · simp [getPoints, h, hp, hok]
  · intro resp kvs pkvs now hok h hp
    simp only [getPoints, h, hp, hok]
    by_cases hmiss : ¬ pkvs.hasKey "gridId" = true ∨ ¬ pkvs.hasKey "gridX" = true ∨
        ¬ pkvs.hasKey "gridY" = true ∨ ¬ pkvs.hasKey "forecastHourly" = true
    · rw [if_neg (by simp), if_pos hmiss]
    · rw [if_neg (by simp), if_neg hmiss, if_neg (by simp)]

/-- C3 witness: a non-success response and a response whose properties lack
`gridX`/`gridY`/`forecastHourly` both yield the empty sentinel. -/
theorem C3_getPoints_degrades_to_sentinel_witness :
    getPoints none (.ok ⟨false, some (.dict .nil), ""⟩) true 0 = (emptyPoint, none) ∧
    getPoints none (.ok ⟨true, some (.dict (.cons "properties"
        (.dict (.cons "gridId" (.str "BOU") .nil)) .nil)), ""⟩) true 0 =
      (emptyPoint, none) := by
  constructor
  · exact C3_getPoints_degrades_to_sentinel.2.1 _ true 0 rfl
  · exact C3_getPoints_degrades_to_sentinel.2.2.2.2.2.2.1 _ _ _ true 0 rfl rfl
      (by decide)

/-! Forecast Fetcher, `weather.py` lines 285-344. -/

/-- The empty `Forecast({})`. -/
def emptyForecast : ForecastObj := { elevation := .str "", periods := [] }

/-- The validation at line 313: `"properties" not in forecast_data or
"periods" not in forecast_data.get("properties", an empty dict)`.  `none`
models an exception in the check itself (`in`/`.get` on an unsuitable
type), caught by the surrounding handler. -/
def forecastValidationOk (forecast_data : PyVal) : Option Bool :=
  match pyContains forecast_data "properties" with
  | none => none
  | some false => some false
  | some true =>
      match forecast_data with
      | .dict kvs =>
          match pyContains (kvs.getD "properties" (.dict .nil)) "periods" with
          | none => none
          | some b => some b
      | _ => none

/-- The result of `getForecast`: the returned forecast, and the document
plus expiry written to the forecast cache when a write happened. -/
structure GetForecastResult where
  ret : ForecastObj
  write : Option (PyVal × ℚ)
deriving DecidableEq

/-- `expires_at` of the forecast cache entry (lines 322-330): `max-age`
seconds from the response `Cache-Control` when parseable, else 3 hours. -/
def forecastExpiresAt (time : ℚ) (cacheControl : String) : ℚ :=
  if containsSub "max-age=".data cacheControl.data then
    match dropThroughFirst "max-age=".data cacheControl.data with
    | some rest =>
        match pyIntOfString (takeUntilChar ',' (takeUntilSub "max-age=".data rest)) with
        | some n => time + (n : ℚ)
        | none => time + 3 * 3600
    | none => time + 3 * 3600
  else time + 3 * 3600

/-- The cache-miss path of `getForecast` (lines 297-344): require a
forecast URL, fetch, validate, enrich with the supplementary layers
*before* caching, compute the TTL, store, and return the forecast built
from the enriched document.  Every exception degrades to `Forecast({})`;
a Firestore write failure (`storeOk = false`) is caught at lines 335-336
and the forecast is still returned. -/
def getForecastFetch (forecast_url : String) (fetch : Except Unit HttpResp)
    (gridpoint_data : GridpointData) (storeOk : Bool) (time : ℚ) :
    GetForecastResult :=
  if forecast_url ≠ "" then
    match fetch with
    | .error _ => { ret := emptyForecast, write := none }
    | .ok resp =>
        if ¬ resp.ok then { ret := emptyForecast, write := none }
        else
          match resp.body with
          | none => { ret := emptyForecast, write := none }
          | some forecast_data =>
              match forecastValidationOk forecast_data with
              | none => { ret := emptyForecast, write := none }
              | some false => { ret := emptyForecast, write := none }
              | some true =>
                  match merge_gridpoint_data forecast_data gridpoint_data with
                  | none => { ret := emptyForecast, write := none }
                  | some merged =>
                      { ret := (forecastInit merged).getD emptyForecast
                        write := if storeOk then
                            some (merged, forecastExpiresAt time resp.cacheControl)
                          else none }
  else { ret := emptyForecast, write := none }

/-- `getForecast` (`weather.py` lines 285-344), external effects as
parameters: the forecast-cache read (`none` covers both a miss and a read
exception, which is caught and logged at lines 294-295), the forecast URL
resolved by `getForecastUrl` (`""` when unknown or on error), the HTTP
fetch, the supplementary gridpoint data (`getGridpointData` returns empty
maps on failure and never raises), the write outcome and the current time.
A truthy cached document is returned directly; if `Forecast(cached)` raises
the exception is caught and the fetch path runs. -/
def getForecast (cachedForecast : Option PyVal) (forecast_url : String)
    (fetch : Except Unit HttpResp) (gridpoint_data : GridpointData)
    (storeOk : Bool) (time : ℚ) : GetForecastResult :=
  match cachedForecast with
  | some cf =>
      if cf.truthy then
        match forecastInit cf with
        | some fo => { ret := fo, write := none }
        | none => getForecastFetch forecast_url fetch gridpoint_data storeOk time
      else getForecastFetch forecast_url fetch gridpoint_data storeOk time
  | none => getForecastFetch forecast_url fetch gridpoint_data storeOk time

/-- C1 (failing input): on a cache miss with a valid one-period forecast
response, `getForecast` caches exactly the merged document: the cached
period is scorable (its features extract) yet carries no `ride_score` key —
`score_periods` is never called anywhere in `getForecast`, contradicting
the claim that cached entries already carry scores. -/
theorem C1_getForecast_caches_unscored_periods :
    (getForecast none "https://api.weather.gov/forecast" (.ok
        { ok := true
          body := some (.dict (.cons "properties" (.dict
            (.cons "elevation" (.dict (.cons "value" (.num 100) .nil))
              (.cons "periods" (.list (.cons (.dict (.cons "temperature" (.num 70)
                (.cons "startTime" (.str "2025-01-01T06:00:00+00:00") .nil))) .nil))
                .nil))) .nil))
          cacheControl := "" }) GridpointData.empty true 0).write =
      some (.dict (.cons "properties" (.dict
        (.cons "elevation" (.dict (.cons "value" (.num 100) .nil))
          (.cons "periods" (.list (.cons (.dict (.cons "temperature" (.num 70)
            (.cons "startTime" (.str "2025-01-01T06:00:00+00:00") .nil))) .nil))
            .nil))) .nil), forecastExpiresAt 0 "") ∧
    (extract_features (.cons "temperature" (.num 70)
      (.cons "startTime" (.str "2025-01-01T06:00:00+00:00") .nil))).isSome = true ∧
    (PyDict.cons "temperature" (.num 70)
      (.cons "startTime" (.str "2025-01-01T06:00:00+00:00") .nil)).get? "ride_score" =
      none := by
  refine ⟨rfl, rfl, by decide⟩

/-! Resolution Orchestrator, `getWeather` (`weather.py` lines 414-432). -/

/-- One `Coordinates` object as `getWeather` mutates it: the raw
latitude/longitude strings, the resolved point and the forecast slot.
`forecasts = none` models Python `None` (what a coordinate receives when
its point was never fetched); a fresh coordinate starts with the empty
`Forecast`. -/
structure CoordState where
  latitude : String
  longitude : String
  point : Point
  forecasts : Option ForecastObj
deriving DecidableEq

/-- Keys of the `distinct_points` dict, in insertion order. -/
def dpKeys (d : List (Point × Option ForecastObj)) : List Point :=
  d.map Prod.fst

/-- `distinct_points[point] = None` (line 422): dict assignment — an
existing key keeps its position and has its value overwritten with `None`,
a new key is appended. -/
def dpAssignNone (d : List (Point × Option ForecastObj)) (k : Point) :
    List (Point × Option ForecastObj) :=
  if k ∈ dpKeys d then d.map (fun e => if e.1 = k then (e.1, none) else e)
  else d ++ [(k, none)]

/-- Dict lookup in the distinct-points table. -/
def dpLookup : List (Point × Option ForecastObj) → Point → Option (Option ForecastObj)
  | [], _ => none
  | (k, v) :: tl, key => if k = key then some v else dpLookup tl key

/-- The first loop of `getWeather` (lines 418-422): truncate, resolve
(`getPoints` abstracted as a function — it is deterministic per truncated
coordinate within one run), record the point on the coordinate and in the
distinct-points dict.  `none` models the uncaught `ValueError` of
`truncateCoordinate` on a malformed coordinate. -/
def resolvePhase (resolve : String → String → Point) :
    List CoordState → List (Point × Option ForecastObj) →
    Option (List CoordState × List (Point × Option ForecastObj))
  | [], dp => some ([], dp)
  | c :: rest, dp =>
      match truncateCoordinate c.latitude 4 with
      | none => none
      | some tlat =>
          match truncateCoordinate c.longitude 4 with
          | none => none
          | some tlon =>
              match resolvePhase resolve rest
                  (dpAssignNone dp (resolve tlat tlon)) with
              | none => none
              | some (rest', dp') =>
                  some ({ c with point := resolve tlat tlon } :: rest', dp')

/-- The second loop (lines 425-428): one `getForecast` call per distinct
point that `is_not_empty()`, in insertion order, writing the result into
the table.  The second component is the list of points actually fetched. -/
def fetchPhase (f : Point → ForecastObj) :
    List (Point × Option ForecastObj) → List (Point × Option ForecastObj) × List Point
  | [] => ([], [])
  | (pt, v) :: rest =>
      if pt.is_not_empty then
        ((pt, some (f pt)) :: (fetchPhase f rest).1, pt :: (fetchPhase f rest).2)
      else ((pt, v) :: (fetchPhase f rest).1, (fetchPhase f rest).2)

/-- The third loop (lines 430-432): `if coordinate.point in distinct_points:
coordinate.forecasts = distinct_points[coordinate.point]`. -/
def assignPhase (dp : List (Point × Option ForecastObj)) :
    List CoordState → List CoordState
  | [] => []
  | c :: rest =>
      (match dpLookup dp c.point with
        | some v => { c with forecasts := v }
        | none => c) :: assignPhase dp rest

/-- `getWeather` (`weather.py` lines 414-432): resolve all points, fetch
one forecast per distinct non-empty point, fan results back.  Returns the
mutated coordinates, the final distinct-points table, and the fetch log. -/
def getWeather (resolve : String → String → Point)
    (fetchForecast : Point → ForecastObj) (coords : List CoordState) :
    Option (List CoordState × List (Point × Option ForecastObj) × List Point) :=
  match resolvePhase resolve coords [] with
  | none => none
  | some (coords', dp0) =>
      some (assignPhase (fetchPhase fetchForecast dp0).1 coords',
            (fetchPhase fetchForecast dp0).1,
            (fetchPhase fetchForecast dp0).2)

theorem dpAssignNone_keys_mem (d : List (Point × Option ForecastObj)) (k p : Point) :
    p ∈ dpKeys (dpAssignNone d k) ↔ p ∈ dpKeys d ∨ p = k := by
  unfold dpAssignNone
  by_cases hmem : k ∈ dpKeys d
  · rw [if_pos hmem]
    have hkeys : dpKeys (d.map (fun e => if e.1 = k then (e.1, none) else e)) =
        dpKeys d := by
      unfold dpKeys
      rw [List.map_map]
      apply List.map_congr_left
      intro e _
      by_cases he : e.1 = k <;> simp [he]
    rw [hkeys]
    constructor
    · exact Or.inl
    · rintro (hp | rfl)
      · exact hp
      · exact hmem
  · rw [if_neg hmem]
    unfold dpKeys
    simp [List.map_append]

theorem dpAssignNone_keys_nodup {d : List (Point × Option ForecastObj)} (k : Point)
    (h : (dpKeys d).Nodup) : (dpKeys (dpAssignNone d k)).Nodup := by
  unfold dpAssignNone
  by_cases hmem : k ∈ dpKeys d
  · rw [if_pos hmem]
    have hkeys : dpKeys (d.map (fun e => if e.1 = k then (e.1, none) else e)) =
        dpKeys d := by
      unfold dpKeys
      rw [List.map_map]
      apply List.map_congr_left
      intro e _
      by_cases he : e.1 = k <;> simp [he]
    rwa [hkeys]
  · rw [if_neg hmem]
    unfold dpKeys at *
    rw [List.map_append]
    simp only [List.map_cons, List.map_nil]
    exact List.nodup_append.mpr ⟨h, List.nodup_singleton k,
      by simpa [List.disjoint_singleton] using hmem⟩

theorem resolvePhase_spec (resolve : String → String → Point) :
    ∀ (cs : List CoordState) (dp : List (Point × Option ForecastObj)) cs' dp',
      resolvePhase resolve cs dp = some (cs', dp') →
      ((dpKeys dp).Nodup → (dpKeys dp').Nodup) ∧
      (∀ p, p ∈ dpKeys dp' ↔ p ∈ dpKeys dp ∨ ∃ c ∈ cs', c.point = p) := by
  intro cs
  induction cs with
  | nil =>
    intro dp cs' dp' h
    simp only [resolvePhase, Option.some.injEq, Prod.mk.injEq] at h
    obtain ⟨rfl, rfl⟩ := h
    exact ⟨id, fun p => by simp⟩
  | cons c rest ih =>
    intro dp cs' dp' h
    unfold resolvePhase at h
    cases hlat : truncateCoordinate c.latitude 4 with
    | none => rw [hlat] at h; simp at h
    | some tlat =>
      rw [hlat] at h
      dsimp only [] at h
      cases hlon : truncateCoordinate c.longitude 4 with
      | none => rw [hlon] at h; simp at h
      | some tlon =>
        rw [hlon] at h
        dsimp only [] at h
        cases hrec : resolvePhase resolve rest
            (dpAssignNone dp (resolve tlat tlon)) with
        | none => rw [hrec] at h; simp at h
        | some pair =>
          obtain ⟨rest', dpr⟩ := pair
          rw [hrec] at h
          simp only [Option.some.injEq, Prod.mk.injEq] at h
          obtain ⟨rfl, rfl⟩ := h
          obtain ⟨ihn, ihm⟩ := ih (dpAssignNone dp (resolve tlat tlon)) _ _ hrec
          constructor
          · exact fun hn => ihn (dpAssignNone_keys_nodup _ hn)
          · intro p
            rw [ihm p, dpAssignNone_keys_mem]
            constructor
            · rintro ((hp | rfl) | ⟨c2, hc2, rfl⟩)
              · exact Or.inl hp
              · exact Or.inr ⟨{ c with point := resolve tlat tlon },
                  List.mem_cons_self _ _, rfl⟩
              · exact Or.inr ⟨c2, List.mem_cons.mpr (Or.inr hc2), rfl⟩
            · rintro (hp | ⟨c2, hc2, rfl⟩)
              · exact Or.inl (Or.inl hp)
              · rcases List.mem_cons.mp hc2 with rfl | hc2'
                · exact Or.inl (Or.inr rfl)
                · exact Or.inr ⟨c2, hc2', rfl⟩

theorem fetchPhase_spec (f : Point → ForecastObj) :
    ∀ dp, (fetchPhase f dp).2 = (dpKeys dp).filter (fun p => p.is_not_empty) ∧
      dpKeys (fetchPhase f dp).1 = dpKeys dp := by
  intro dp
  induction dp with
  | nil => exact ⟨rfl, rfl⟩
  | cons e rest ih =>
    obtain ⟨pt, v⟩ := e
    obtain ⟨ih1, ih2⟩ := ih
    by_cases hne : pt.is_not_empty = true
    · constructor
      · simp only [fetchPhase, if_pos hne, dpKeys, List.map_cons, List.filter_cons,
          hne, ih1]
        rfl
      · simp [fetchPhase, if_pos hne, dpKeys, List.map_cons]
        exact ih2
    · constructor
      · simp only [fetchPhase, if_neg hne, dpKeys, List.map_cons, List.filter_cons]
        rw [Bool.not_eq_true] at hne
        simp [hne, ih1, dpKeys]
      · simp [fetchPhase, if_neg hne, dpKeys, List.map_cons]
        exact ih2

theorem assignPhase_points (dp : List (Point × Option ForecastObj)) :
    ∀ cs : List CoordState, (assignPhase dp cs).map CoordState.point =
      cs.map CoordState.point := by
  intro cs
  induction cs with
  | nil => rfl
  | cons c rest ih =>
    simp only [assignPhase, List.map_cons, ih]
    cases h : dpLookup dp c.point <;> simp

theorem assignPhase_forecasts (dp : List (Point × Option ForecastObj)) :
    ∀ (cs : List CoordState) (c' : CoordState), c' ∈ assignPhase dp cs →
      ∀ v, dpLookup dp c'.point = some v → c'.forecasts = v := by
  intro cs
  induction cs with
  | nil => intro c' h; simp [assignPhase] at h
  | cons c rest ih =>
    intro c' hmem v hv
    simp only [assignPhase] at hmem
    rcases List.mem_cons.mp hmem with h1 | h1
    · cases hl : dpLookup dp c.point with
      | some v0 =>
        rw [hl] at h1
        subst h1
        simp only at hv ⊢
        rw [hl] at hv
        exact Option.some_inj.mp hv
      | none =>
        rw [hl] at h1
        subst h1
        rw [hl] at hv
        exact absurd hv (by simp)
    · exact ih c' h1 v hv

/-- C2: whenever `getWeather` completes, the forecast fetches are exactly
one per distinct non-empty resolved point (the fetch log has no duplicates
and contains precisely the non-empty points of the output coordinates),
the empty sentinel is never fetched, and every coordinate whose point is in
the distinct-points table has its forecast assigned from that table. -/
theorem C2_getWeather_one_fetch_per_distinct_point :
    ∀ (resolve : String → String → Point) (fetchForecast : Point → ForecastObj)
      (coords out : List CoordState) (table : List (Point × Option ForecastObj))
      (log : List Point),
      getWeather resolve fetchForecast coords = some (out, table, log) →
      log.Nodup ∧
      (∀ p, p ∈ log ↔ ((∃ c ∈ out, c.point = p) ∧ p.is_not_empty = true)) ∧
      emptyPoint ∉ log ∧
      (∀ c ∈ out, ∀ v, dpLookup table c.point = some v → c.forecasts = v) := by
  intro resolve f coords out table log h
  unfold getWeather at h
  cases hres : resolvePhase resolve coords [] with
  | none => rw [hres] at h; simp at h
  | some pair =>
    obtain ⟨coords', dp0⟩ := pair
    rw [hres] at h
    simp only [Option.some.injEq, Prod.mk.injEq] at h
    obtain ⟨rfl, rfl, rfl⟩ := h
    obtain ⟨hspecN, hspecM⟩ := resolvePhase_spec resolve coords [] coords' dp0 hres
    obtain ⟨hlog, hkeys⟩ := fetchPhase_spec f dp0
    have hnodup0 : (dpKeys dp0).Nodup := hspecN (by simp [dpKeys])
    have hmapeq := assignPhase_points (fetchPhase f dp0).1 coords'
    have hptseq : ∀ p : Point,
        (∃ c ∈ assignPhase (fetchPhase f dp0).1 coords', c.point = p) ↔
        ∃ c ∈ coords', c.point = p := by
      intro p
      rw [← List.mem_map (f := CoordState.point), ← List.mem_map (f := CoordState.point),
        hmapeq]
    have hmem0 : ∀ p : Point, p ∈ dpKeys dp0 ↔ ∃ c ∈ coords', c.point = p := by
      intro p
      rw [hspecM p]
      constructor
      · rintro (h0 | h0)
        · simp [dpKeys] at h0
        · exact h0
      · exact Or.inr
    refine ⟨?_, ?_, ?_, ?_⟩
    · rw [hlog]
      exact hnodup0.filter _
    · intro p
      rw [hlog, List.mem_filter, hmem0 p, ← hptseq p]
    · intro hmem
      rw [hlog, List.mem_filter] at hmem
      exact absurd hmem.2 (by decide)
    · intro c hc v hv
      exact assignPhase_forecasts (fetchPhase f dp0).1 coords' c hc v hv

/-- C2 witness: two coordinates truncating to the same grid point and one
unresolvable coordinate produce exactly one fetch of the shared point, no
fetch of the sentinel, and every coordinate is assigned from the table (the
unresolved one receives the table's `None`). -/
theorem C2_getWeather_one_fetch_per_distinct_point_witness :
    [Point.mk "BOU" "1" "2"].Nodup ∧
    emptyPoint ∉ [Point.mk "BOU" "1" "2"] ∧
    (CoordState.mk "0" "0" emptyPoint none).forecasts = none := by
  have h := C2_getWeather_one_fetch_per_distinct_point
    (fun lat _ => if lat = "0" then emptyPoint else ⟨"BOU", "1", "2"⟩)
    (fun _ => emptyForecast)
    [⟨"40.1000", "-105.2000", emptyPoint, some emptyForecast⟩,
     ⟨"40.1000", "-105.2000", emptyPoint, some emptyForecast⟩,
     ⟨"0", "0", emptyPoint, some emptyForecast⟩]
    [⟨"40.1000", "-105.2000", ⟨"BOU", "1", "2"⟩, some emptyForecast⟩,
     ⟨"40.1000", "-105.2000", ⟨"BOU", "1", "2"⟩, some emptyForecast⟩,
     ⟨"0", "0", emptyPoint, none⟩]
    [(⟨"BOU", "1", "2"⟩, some emptyForecast), (emptyPoint, none)]
    [⟨"BOU", "1", "2"⟩]
    (by decide)
  refine ⟨h.1, h.2.2.1, ?_⟩
  exact h.2.2.2 (CoordState.mk "0" "0" emptyPoint none) (by decide) none (by decide)
